import Mathlib

/-!
# Verification of the Fleet catalog backend module

Shallow embedding of `src/provider.ts` (FleetEntityProvider and the entity
mapper), `src/types.ts` (status utilities) and the Fleet client helper
`extractClusterIdFromNamespace` of the
`gorizond/catalog-backend-module-fleet` repository, together with proofs of
the specification claims about them.

Modelling conventions:
* TypeScript strings are Lean `String`s; character-level transforms work on
  `List Char` (`String.data`).
* `undefined`/optional fields are `Option`; JavaScript truthiness tests on
  strings (`if (s)`) are modelled as `s ≠ ""` on present values.
* A JavaScript object used as a string-keyed record is a `Rec`
  (association list with unique keys; assignment replaces the existing
  slot in place, like JS property assignment).
* Exceptions are `Except`; the catalog output channel is modelled by the
  list of mutations the run applies.
-/

set_option maxRecDepth 100000

namespace Fleet

/-! ## JavaScript string-keyed records (`Record<string, string>`) -/

/-- A JS object with string keys and string values, as an association list
(in property-insertion order, mirroring JS object slots). -/
abbrev Rec := List (String × String)

/-- Property read `r[k]`: `none` models `undefined`. -/
def recGet (r : Rec) (k : String) : Option String :=
  (r.find? (fun p => p.1 == k)).map (fun p => p.2)

/-- Property assignment `r[k] = v`: replaces the slot of `k` in place if it
exists, appends a new slot otherwise (JS property-assignment semantics;
object keys are unique, so replacing the first matching slot is exact). -/
def recSet : Rec → String → String → Rec
  | [], k, v => [(k, v)]
  | p :: rest, k, v => if p.1 = k then (k, v) :: rest else p :: recSet rest k v

/-- `Object.assign(target, src)` / object spread `{...target, ...src}`:
assigns every entry of `src` into `target`, in order. -/
def recMerge (target src : Rec) : Rec :=
  src.foldl (fun acc p => recSet acc p.1 p.2) target

/-- The value the key `k` ends up with after all entries of `src` are
assigned in order: the last occurrence of `k` in `src`, if any. -/
def recGetLast (src : Rec) (k : String) : Option String :=
  (src.reverse.find? (fun p => p.1 == k)).map (fun p => p.2)

theorem recGet_recSet (r : Rec) (k v q : String) :
    recGet (recSet r k v) q = if q = k then some v else recGet r q := by
  induction r with
  | nil =>
    by_cases h : q = k
    · simp [recGet, recSet, h, List.find?]
    · simp [recGet, recSet, h, List.find?,
        show (k == q) = false by simp [show k ≠ q from fun hh => h hh.symm]]
  | cons p rest ih =>
    by_cases hpk : p.1 = k
    · by_cases hqk : q = k
      · subst hqk; simp [recGet, recSet, hpk, List.find?]
      · simp only [recSet, hpk, if_true]
        have hk : (k == q) = false := by
          simp [show k ≠ q from fun h => hqk h.symm]
        simp [recGet, List.find?, hk, hpk, hqk,
          show (p.1 == q) = false by simp [hpk, show k ≠ q from fun h => hqk h.symm]]
    · simp only [recSet, hpk, if_false]
      by_cases hpq : p.1 = q
      · have hqk : ¬ q = k := fun h => hpk (h ▸ hpq)
        simp [recGet, List.find?, hpq, hqk]
      · simp only [recGet, List.find?,
          show (p.1 == q) = false by simp [hpq]]
        simpa [recGet] using ih

theorem recGetLast_cons (p : String × String) (rest : Rec) (k : String) :
    recGetLast (p :: rest) k =
      match recGetLast rest k with
      | some v => some v
      | none => if p.1 = k then some p.2 else none := by
  simp only [recGetLast, List.reverse_cons, List.find?_append]
  cases hfind : rest.reverse.find? (fun q => q.1 == k) with
  | none =>
    by_cases hpk : p.1 = k
    · simp [hfind, Option.orElse, List.find?, hpk]
    · simp [hfind, Option.orElse, List.find?, hpk,
        show (p.1 == k) = false by simp [hpk]]
  | some q => simp [hfind, Option.orElse]

theorem recGet_recMerge (t s : Rec) (k : String) :
    recGet (recMerge t s) k =
      match recGetLast s k with
      | some v => some v
      | none => recGet t k := by
  induction s generalizing t with
  | nil => simp [recMerge, recGetLast]
  | cons p rest ih =>
    have : recMerge t (p :: rest) = recMerge (recSet t p.1 p.2) rest := rfl
    rw [this, ih, recGetLast_cons]
    cases hrest : recGetLast rest k with
    | some v => rfl
    | none =>
      by_cases hpk : p.1 = k
      · simp [hpk, recGet_recSet]
      · simp [hpk, recGet_recSet, show ¬ k = p.1 from fun h => hpk h.symm]

/-- `[...new Set(list)]` on strings: first-occurrence-preserving dedup. -/
def dedupFirst (l : List String) : List String :=
  go [] l
where
  go (seen : List String) : List String → List String
    | [] => []
    | s :: rest =>
      if s ∈ seen then go seen rest else s :: go (s :: seen) rest

/-! ## Catalog entities

A Backstage entity, flattened: the `metadata` fields used by the provider
plus the union of the kind-specific `spec` fields the mappers produce.
A `spec` field the mapper leaves absent is `none` / `[]`. -/

structure Entity where
  kind : String
  name : String
  nspace : Option String := none
  description : String := ""
  annotations : Rec := []
  tags : List String := []
  links : List (String × String) := []
  owner : Option String := none
  etype : Option String := none
  lifecycle : Option String := none
  system : Option String := none
  domain : Option String := none
  dependsOn : List String := []
  providesApis : List String := []
  consumesApis : List String := []
  definition : Option String := none
  deriving DecidableEq, Repr

/-! ## Deduplication (`FleetEntityProvider.dedupeEntities`, provider.ts 294-305) -/

/-- The dedup key: `` `${entity.kind}:${ns}:${entity.metadata?.name}` `` with
`ns = entity.metadata?.namespace ?? "default"`. -/
def entityKey (e : Entity) : String :=
  e.kind ++ ":" ++ (e.nspace.getD "default") ++ ":" ++ e.name

/-- The loop body of `dedupeEntities`: `seen` is the set of keys already
kept, entities whose key was seen are skipped. -/
def dedupeGo (seen : List String) : List Entity → List Entity
  | [] => []
  | e :: rest =>
    if entityKey e ∈ seen then dedupeGo seen rest
    else e :: dedupeGo (entityKey e :: seen) rest

/-- `dedupeEntities` from provider.ts: keeps the first entity seen for each
`(kind, namespace, name)` key. -/
def dedupeEntities (entities : List Entity) : List Entity :=
  dedupeGo [] entities

theorem dedupeGo_sublist (seen : List String) (l : List Entity) :
    (dedupeGo seen l).Sublist l := by
  induction l generalizing seen with
  | nil => simp [dedupeGo]
  | cons e rest ih =>
    by_cases h : entityKey e ∈ seen
    · simp only [dedupeGo, h, if_true]
      exact (ih seen).cons e
    · simp only [dedupeGo, h, if_false]
      exact (ih (entityKey e :: seen)).cons₂ e

theorem dedupeGo_mem_spec (seen : List String) (l : List Entity) :
    ∀ e ∈ dedupeGo seen l,
      entityKey e ∉ seen ∧
      l.find? (fun x => entityKey x == entityKey e) = some e := by
  induction l generalizing seen with
  | nil => intro e he; simp [dedupeGo] at he
  | cons x rest ih =>
    intro e he
    by_cases h : entityKey x ∈ seen
    · simp only [dedupeGo, h, if_true] at he
      obtain ⟨hnotseen, hfind⟩ := ih seen e he
      have hne : entityKey x ≠ entityKey e := fun heq => hnotseen (heq ▸ h)
      refine ⟨hnotseen, ?_⟩
      simp only [List.find?, show (entityKey x == entityKey e) = false by
        simp [hne]]
      exact hfind
    · simp only [dedupeGo, h, if_false] at he
      rcases List.mem_cons.mp he with he | he
      · subst he
        exact ⟨h, by simp [List.find?]⟩
      · obtain ⟨hnotseen, hfind⟩ := ih (entityKey x :: seen) e he
        have hne : entityKey x ≠ entityKey e := by
          intro hEq
          exact hnotseen (by simp [hEq])
        refine ⟨fun hs => hnotseen (by simp [hs]), ?_⟩
        simp only [List.find?, show (entityKey x == entityKey e) = false by
          simp [hne]]
        exact hfind

theorem dedupeGo_nodup (seen : List String) (l : List Entity) :
    ((dedupeGo seen l).map entityKey).Nodup := by
  induction l generalizing seen with
  | nil => simp [dedupeGo]
  | cons x rest ih =>
    by_cases h : entityKey x ∈ seen
    · simpa [dedupeGo, h] using ih seen
    · simp only [dedupeGo, h, if_false, List.map_cons, List.nodup_cons]
      refine ⟨?_, ih (entityKey x :: seen)⟩
      intro hmem
      obtain ⟨e, he, hkey⟩ := List.mem_map.mp hmem
      obtain ⟨hnotseen, _⟩ := dedupeGo_mem_spec (entityKey x :: seen) rest e he
      exact hnotseen (by simp [hkey])

theorem dedupeGo_complete (seen : List String) (l : List Entity) :
    ∀ e ∈ l, entityKey e ∈ seen ∨
      ∃ e' ∈ dedupeGo seen l, entityKey e' = entityKey e := by
  induction l generalizing seen with
  | nil => intro e he; simp at he
  | cons x rest ih =>
    intro e he
    by_cases h : entityKey x ∈ seen
    · simp only [dedupeGo, h, if_true]
      rcases List.mem_cons.mp he with he | he
      · subst he; exact Or.inl h
      · exact ih seen e he
    · simp only [dedupeGo, h, if_false]
      rcases List.mem_cons.mp he with he | he
      · subst he
        exact Or.inr ⟨e, List.mem_cons_self _ _, rfl⟩
      · rcases ih (entityKey x :: seen) e he with hseen | ⟨e', he', hkey⟩
        · rcases List.mem_cons.mp hseen with heq | hseen'
          · exact Or.inr ⟨x, List.mem_cons_self _ _, heq.symm⟩
          · exact Or.inl hseen'
        · exact Or.inr ⟨e', List.mem_cons_of_mem _ he', hkey⟩

/-! ## Name codec (entityMapper: `sanitizeName`, `toBackstageName`)

Character classes are expressed on code points (`Char.toNat`):
`[a-z]` is 97..122, `[0-9]` is 48..57, `-` is 45, `[A-Z]` is 65..90.
`String.prototype.toLowerCase` is modelled on ASCII; non-ASCII case
mappings are not modelled (every non-ASCII character is replaced by `-`
by the following step in the pipeline either way). -/

/-- Membership in the character class `[a-z0-9]`. -/
def isLowerAlnum (c : Char) : Bool :=
  (97 ≤ c.toNat && c.toNat ≤ 122) || (48 ≤ c.toNat && c.toNat ≤ 57)

/-- Membership in the character class `[a-z0-9-]` kept by
`.replace(/[^a-z0-9-]/g, "-")`. -/
def isSafeChar (c : Char) : Bool := isLowerAlnum c || c == '-'

/-- `.toLowerCase()` on one character (ASCII). -/
def jsToLower (c : Char) : Char :=
  if 65 ≤ c.toNat ∧ c.toNat ≤ 90 then Char.ofNat (c.toNat + 32) else c

/-- `.replace(/[^a-z0-9-]/g, "-")`. -/
def replaceUnsafe (l : List Char) : List Char :=
  l.map (fun c => if isSafeChar c then c else '-')

/-- `.replace("--+" regexp, "-")`: every maximal run of two or more hyphens
becomes a single hyphen, i.e. adjacent duplicate hyphens collapse. -/
def collapseHyphens : List Char → List Char
  | [] => []
  | [c] => [c]
  | c₁ :: c₂ :: rest =>
    if c₁ = '-' ∧ c₂ = '-' then collapseHyphens (c₂ :: rest)
    else c₁ :: collapseHyphens (c₂ :: rest)

/-- `.replace(/^-+/, "")`: strip the leading run of hyphens. -/
def dropLeadingHyphens (l : List Char) : List Char := l.dropWhile (· == '-')

/-- `.replace("-+$" regexp, "")`: strip the trailing run of hyphens. -/
def dropTrailingHyphens (l : List Char) : List Char :=
  (l.reverse.dropWhile (· == '-')).reverse

/-- `sanitizeName` from the entity mapper: lowercase, replace characters
outside `[a-z0-9-]` by `-`, collapse repeated hyphens, strip leading and
trailing hyphens. -/
def sanitizeName (l : List Char) : List Char :=
  dropTrailingHyphens
    (dropLeadingHyphens (collapseHyphens (replaceUnsafe (l.map jsToLower))))

/-- `MAX_ENTITY_NAME_LENGTH` from the entity mapper. -/
def MAX_ENTITY_NAME_LENGTH : Nat := 63

/-- `toBackstageName` on character lists:
`sanitizeName(value).slice(0, 63)` with a trailing hyphen run stripped, and the fixed
placeholder `"fleet-entity"` when the result is empty -/
def toBackstageNameList (l : List Char) : List Char :=
  let clean := sanitizeName l
  let trimmed := dropTrailingHyphens (clean.take MAX_ENTITY_NAME_LENGTH)
  if trimmed = [] then "fleet-entity".data else trimmed

/-- `toBackstageName` from the entity mapper. -/
def toBackstageName (s : String) : String := ⟨toBackstageNameList s.data⟩

/-- `toEntityNamespace` from the entity mapper. -/
def toEntityNamespace (fleetNamespace : String) : String :=
  toBackstageName fleetNamespace

/-! ### The safe-name pattern `^[a-z0-9]+(-[a-z0-9]+)*$`

`goSafe b l` runs the obvious two-state automaton for the pattern over
`l`; the state `b` records whether the previous character was
alphanumeric (so that the end of input or a hyphen is acceptable). -/

def goSafe : Bool → List Char → Bool
  | b, [] => b
  | b, c :: rest =>
    if isLowerAlnum c then goSafe true rest
    else if c == '-' && b then goSafe false rest
    else false

/-- `l` matches `^[a-z0-9]+(-[a-z0-9]+)*$`. -/
def matchesSafe (l : List Char) : Bool := goSafe false l

/-- Adjacent characters are not both hyphens. -/
def HyphenApart (a b : Char) : Prop := ¬(a = '-' ∧ b = '-')

/-- No two adjacent hyphens anywhere in `l`. -/
def NoConsec (l : List Char) : Prop := l.Chain' HyphenApart

/-- The first-order characterisation of the safe-name pattern: nonempty,
only `[a-z0-9-]` characters, no adjacent hyphens, and no hyphen at either
end. -/
def SafeShape (l : List Char) : Prop :=
  l ≠ [] ∧ (∀ c ∈ l, isSafeChar c = true) ∧ NoConsec l ∧
    l.head? ≠ some '-' ∧ l.getLast? ≠ some '-'

theorem isLowerAlnum_ne_hyphen {c : Char} (h : isLowerAlnum c = true) :
    c ≠ '-' := by
  intro hc
  subst hc
  simp [isLowerAlnum] at h

theorem isSafeChar_cases {c : Char} (h : isSafeChar c = true) :
    isLowerAlnum c = true ∨ c = '-' := by
  rcases Bool.or_eq_true_iff.mp h with h' | h'
  · exact Or.inl h'
  · exact Or.inr (by simpa using h')

theorem goSafe_of_shape :
    ∀ l : List Char, (∀ c ∈ l, isSafeChar c = true) → NoConsec l →
      l.getLast? ≠ some '-' →
      goSafe true l = true ∧
        (l ≠ [] → l.head? ≠ some '-' → goSafe false l = true) := by
  intro l
  induction l with
  | nil => exact fun _ _ _ => ⟨rfl, fun h _ => absurd rfl h⟩
  | cons c rest ih =>
    intro hall hnc hlast
    rcases isSafeChar_cases (hall c (List.mem_cons_self _ _)) with halnum | hc
    · have hrest : goSafe true rest = true := by
        rcases hr : rest with _ | ⟨c₂, rest₂⟩
        · rfl
        · subst hr
          exact (ih (fun x hx => hall x (List.mem_cons_of_mem _ hx)) hnc.tail
            (by rwa [List.getLast?_cons_cons] at hlast)).1
      constructor
      · simp [goSafe, halnum, hrest]
      · intro _ _
        simp [goSafe, halnum, hrest]
    · subst hc
      have hrestne : rest ≠ [] := by
        intro hr
        subst hr
        exact hlast rfl
      have hheadrest : rest.head? ≠ some '-' := by
        intro hh
        have := (List.chain'_cons'.mp hnc).1 '-' hh
        exact this ⟨rfl, rfl⟩
      have hfalse : goSafe false rest = true :=
        (ih (fun x hx => hall x (List.mem_cons_of_mem _ hx)) hnc.tail
          (by
            rcases hr : rest with _ | ⟨c₂, rest₂⟩
            · exact absurd hr hrestne
            · subst hr
              rwa [List.getLast?_cons_cons] at hlast)).2 hrestne hheadrest
      constructor
      · simp [goSafe, isLowerAlnum, hfalse]
      · intro _ hhead
        exact absurd rfl hhead

theorem shape_of_goSafe :
    ∀ (l : List Char) (b : Bool), goSafe b l = true →
      (∀ c ∈ l, isSafeChar c = true) ∧ NoConsec l ∧ l.getLast? ≠ some '-' ∧
        (b = false → l ≠ [] ∧ l.head? ≠ some '-') := by
  intro l
  induction l with
  | nil =>
    intro b hb
    have : b = true := hb
    refine ⟨by simp, List.chain'_nil, by simp, fun hf => ?_⟩
    rw [this] at hf
    cases hf
  | cons c rest ih =>
    intro b hb
    by_cases halnum : isLowerAlnum c = true
    · have hrest : goSafe true rest = true := by
        simpa [goSafe, halnum] using hb
      obtain ⟨hall, hnc, hlast, _⟩ := ih true hrest
      have hcne : c ≠ '-' := isLowerAlnum_ne_hyphen halnum
      refine ⟨?_, ?_, ?_, fun _ => ⟨by simp, by simpa using hcne⟩⟩
      · intro x hx
        rcases List.mem_cons.mp hx with hx | hx
        · subst hx; simp [isSafeChar, halnum]
        · exact hall x hx
      · exact List.chain'_cons'.mpr ⟨fun y _ hy => hcne hy.1, hnc⟩
      · rcases hr : rest with _ | ⟨c₂, rest₂⟩
        · simpa using hcne
        · subst hr
          rwa [List.getLast?_cons_cons]
    · have hcb : (c == '-' && b) = true ∧ goSafe false rest = true := by
        by_cases hcb' : (c == '-' && b) = true
        · exact ⟨hcb', by simpa [goSafe, halnum, hcb'] using hb⟩
        · exfalso
          simp [goSafe, halnum, hcb'] at hb
      obtain ⟨hcb', hfalse⟩ := hcb
      have hc : c = '-' := by
        have := Bool.and_eq_true_iff.mp hcb'
        simpa using this.1
      subst hc
      obtain ⟨hall, hnc, hlast, hne⟩ := ih false hfalse
      obtain ⟨hrestne, hheadrest⟩ := hne rfl
      refine ⟨?_, ?_, ?_, fun hbf => ?_⟩
      · intro x hx
        rcases List.mem_cons.mp hx with hx | hx
        · subst hx; simp [isSafeChar]
        · exact hall x hx
      · exact List.chain'_cons'.mpr
          ⟨fun y hy h => hheadrest (h.2 ▸ hy), hnc⟩
      · rcases hr : rest with _ | ⟨c₂, rest₂⟩
        · exact absurd hr hrestne
        · subst hr
          rwa [List.getLast?_cons_cons]
      · have hb' : b = true := (Bool.and_eq_true_iff.mp hcb').2
        rw [hbf] at hb'
        cases hb'

theorem matchesSafe_iff (l : List Char) :
    matchesSafe l = true ↔ SafeShape l := by
  constructor
  · intro h
    obtain ⟨hall, hnc, hlast, hne⟩ := shape_of_goSafe l false h
    obtain ⟨hlne, hhead⟩ := hne rfl
    exact ⟨hlne, hall, hnc, hhead, hlast⟩
  · rintro ⟨hlne, hall, hnc, hhead, hlast⟩
    exact (goSafe_of_shape l hall hnc hlast).2 hlne hhead

/-! ### Properties of the sanitation pipeline -/

theorem mem_replaceUnsafe_safe (l : List Char) :
    ∀ c ∈ replaceUnsafe l, isSafeChar c = true := by
  intro c hc
  obtain ⟨x, _, hx⟩ := List.mem_map.mp hc
  by_cases hsafe : isSafeChar x = true
  · rw [← hx, if_pos hsafe]; exact hsafe
  · rw [← hx, if_neg hsafe]; decide

theorem mem_collapseHyphens (l : List Char) :
    ∀ c ∈ collapseHyphens l, c ∈ l := by
  induction l with
  | nil => simp [collapseHyphens]
  | cons c₁ t ih =>
    rcases ht : t with _ | ⟨c₂, rest⟩
    · subst ht; simp [collapseHyphens]
    · subst ht
      intro c hc
      by_cases h : c₁ = '-' ∧ c₂ = '-'
      · simp only [collapseHyphens] at hc
        rw [if_pos h] at hc
        exact List.mem_cons_of_mem _ (ih c hc)
      · simp only [collapseHyphens] at hc
        rw [if_neg h] at hc
        rcases List.mem_cons.mp hc with hc | hc
        · subst hc; exact List.mem_cons_self _ _
        · exact List.mem_cons_of_mem _ (ih c hc)

theorem head?_collapseHyphens (l : List Char) :
    (collapseHyphens l).head? = l.head? := by
  induction l with
  | nil => rfl
  | cons c₁ t ih =>
    rcases ht : t with _ | ⟨c₂, rest⟩
    · subst ht; rfl
    · subst ht
      by_cases h : c₁ = '-' ∧ c₂ = '-'
      · simp only [collapseHyphens]
        rw [if_pos h, ih]
        simp [h.1, h.2]
      · simp only [collapseHyphens]
        rw [if_neg h]
        rfl

theorem noConsec_collapseHyphens (l : List Char) :
    NoConsec (collapseHyphens l) := by
  induction l with
  | nil => exact List.chain'_nil
  | cons c₁ t ih =>
    rcases ht : t with _ | ⟨c₂, rest⟩
    · subst ht; simp [collapseHyphens, NoConsec]
    · subst ht
      by_cases h : c₁ = '-' ∧ c₂ = '-'
      · simp only [collapseHyphens]
        rw [if_pos h]
        exact ih
      · simp only [collapseHyphens]
        rw [if_neg h]
        refine List.chain'_cons'.mpr ⟨?_, ih⟩
        intro y hy
        rw [head?_collapseHyphens] at hy
        simp only [List.head?_cons, Option.mem_def, Option.some.injEq] at hy
        subst hy
        exact h

theorem head?_dropWhile_hyphen (l : List Char) :
    (l.dropWhile (· == '-')).head? ≠ some '-' := by
  induction l with
  | nil => simp [List.dropWhile]
  | cons c rest ih =>
    by_cases hc : c = '-'
    · subst hc; simpa [List.dropWhile] using ih
    · simp [List.dropWhile, show (c == '-') = false by simp [hc], hc]

theorem noConsec_of_suffix {l₁ l₂ : List Char} (h : l₁ <:+ l₂)
    (hnc : NoConsec l₂) : NoConsec l₁ :=
  List.Chain'.suffix hnc h

theorem noConsec_of_pre {l₁ l₂ : List Char} (h : l₁ <+: l₂)
    (hnc : NoConsec l₂) : NoConsec l₁ :=
  List.Chain'.prefix hnc h

theorem noConsec_reverse {l : List Char} (h : NoConsec l) :
    NoConsec l.reverse := by
  refine List.chain'_reverse.mpr ?_
  exact List.Chain'.imp (fun a b hab h' => hab ⟨h'.2, h'.1⟩) h

theorem dropTrailingHyphens_pre (l : List Char) :
    dropTrailingHyphens l <+: l := by
  have hsuffix : l.reverse.dropWhile (· == '-') <:+ l.reverse :=
    List.dropWhile_suffix _
  have := List.reverse_prefix.mpr hsuffix
  simpa [dropTrailingHyphens] using this

theorem mem_dropTrailingHyphens (l : List Char) :
    ∀ c ∈ dropTrailingHyphens l, c ∈ l := fun _ hc =>
  (dropTrailingHyphens_pre l).sublist.mem hc

theorem getLast?_dropTrailingHyphens (l : List Char) :
    (dropTrailingHyphens l).getLast? ≠ some '-' := by
  rw [dropTrailingHyphens, List.getLast?_reverse]
  exact head?_dropWhile_hyphen l.reverse

theorem noConsec_dropTrailingHyphens {l : List Char} (h : NoConsec l) :
    NoConsec (dropTrailingHyphens l) :=
  noConsec_of_pre (dropTrailingHyphens_pre l) h

theorem length_dropTrailingHyphens_le (l : List Char) :
    (dropTrailingHyphens l).length ≤ l.length :=
  (dropTrailingHyphens_pre l).length_le

theorem head?_of_pre {l₁ l₂ : List Char} (h : l₁ <+: l₂) (hne : l₁ ≠ []) :
    l₂.head? = l₁.head? := by
  obtain ⟨t, rfl⟩ := h
  rcases l₁ with _ | ⟨c, rest⟩
  · exact absurd rfl hne
  · rfl

theorem dropWhile_of_head?_ne (l : List Char) (h : l.head? ≠ some '-') :
    l.dropWhile (· == '-') = l := by
  rcases l with _ | ⟨c, rest⟩
  · rfl
  · have hc : c ≠ '-' := by
      intro hc; exact h (by simp [hc])
    simp [List.dropWhile, show (c == '-') = false by simp [hc]]

theorem dropTrailingHyphens_of_getLast?_ne (l : List Char)
    (h : l.getLast? ≠ some '-') : dropTrailingHyphens l = l := by
  rw [dropTrailingHyphens, dropWhile_of_head?_ne _ (by rwa [List.head?_reverse]),
    List.reverse_reverse]

theorem dropTrailingHyphens_eq_nil_iff (l : List Char) :
    dropTrailingHyphens l = [] ↔ ∀ c ∈ l, c = '-' := by
  rw [dropTrailingHyphens, List.reverse_eq_nil_iff, List.dropWhile_eq_nil_iff]
  constructor
  · intro h c hc
    have := h c (List.mem_reverse.mpr hc)
    simpa using this
  · intro h c hc
    simpa using h c (List.mem_reverse.mp hc)

/-- Shape invariants of `sanitizeName`: all characters safe, no adjacent
hyphens, no hyphen at either end. -/
theorem sanitizeName_shape (l : List Char) :
    (∀ c ∈ sanitizeName l, isSafeChar c = true) ∧ NoConsec (sanitizeName l) ∧
      (sanitizeName l).head? ≠ some '-' ∧
      (sanitizeName l).getLast? ≠ some '-' := by
  set collapsed := collapseHyphens (replaceUnsafe (l.map jsToLower)) with hcoll
  set led := dropLeadingHyphens collapsed with hled
  have hmem : ∀ c ∈ sanitizeName l, isSafeChar c = true := by
    intro c hc
    have h1 : c ∈ led := mem_dropTrailingHyphens _ c hc
    have h2 : c ∈ collapsed := (List.dropWhile_suffix _).sublist.mem h1
    exact mem_replaceUnsafe_safe _ c (mem_collapseHyphens _ c h2)
  have hncled : NoConsec led :=
    noConsec_of_suffix (List.dropWhile_suffix _) (noConsec_collapseHyphens _)
  have hnc : NoConsec (sanitizeName l) := noConsec_dropTrailingHyphens hncled
  refine ⟨hmem, hnc, ?_, getLast?_dropTrailingHyphens _⟩
  by_cases hnil : sanitizeName l = []
  · simp [hnil]
  · have hpre : sanitizeName l <+: led := dropTrailingHyphens_pre _
    rw [show (sanitizeName l).head? = led.head? from
      (head?_of_pre hpre hnil).symm]
    exact head?_dropWhile_hyphen _

/-- Shape and length of every `toBackstageName` result. -/
theorem toBackstageNameList_shape (l : List Char) :
    SafeShape (toBackstageNameList l) ∧
      (toBackstageNameList l).length ≤ 63 := by
  obtain ⟨hmem, hnc, hhead, _⟩ := sanitizeName_shape l
  set clean := sanitizeName l with hcleandef
  set trimmed := dropTrailingHyphens (clean.take MAX_ENTITY_NAME_LENGTH)
    with htrimdef
  by_cases h : trimmed = []
  · rw [toBackstageNameList]
    simp only [← hcleandef, ← htrimdef, h, if_pos]
    constructor
    · exact (matchesSafe_iff _).mp (by decide)
    · decide
  · have hres : toBackstageNameList l = trimmed := by
      rw [toBackstageNameList]
      simp only [← hcleandef, ← htrimdef, h, if_neg, if_false]
    rw [hres]
    have htake : clean.take MAX_ENTITY_NAME_LENGTH <+: clean :=
      List.take_prefix _ _
    have hpre : trimmed <+: clean.take MAX_ENTITY_NAME_LENGTH :=
      dropTrailingHyphens_pre _
    refine ⟨⟨h, ?_, ?_, ?_, getLast?_dropTrailingHyphens _⟩, ?_⟩
    · intro c hc
      exact hmem c (htake.sublist.mem (hpre.sublist.mem hc))
    · exact noConsec_dropTrailingHyphens
        (noConsec_of_pre htake hnc)
    · rw [head?_of_pre (hpre.trans htake) h] at hhead
      exact hhead
    · calc trimmed.length ≤ (clean.take MAX_ENTITY_NAME_LENGTH).length :=
            length_dropTrailingHyphens_le _
        _ ≤ 63 := by
            rw [List.length_take]
            exact min_le_left _ _

theorem jsToLower_of_safe {c : Char} (h : isSafeChar c = true) :
    jsToLower c = c := by
  rcases isSafeChar_cases h with h' | h'
  · have : (97 ≤ c.toNat ∧ c.toNat ≤ 122) ∨ (48 ≤ c.toNat ∧ c.toNat ≤ 57) := by
      simpa [isLowerAlnum] using h'
    rw [jsToLower, if_neg (by omega)]
  · subst h'; decide

theorem map_jsToLower_of_safe {l : List Char}
    (h : ∀ c ∈ l, isSafeChar c = true) : l.map jsToLower = l := by
  induction l with
  | nil => rfl
  | cons c rest ih =>
    rw [List.map_cons, jsToLower_of_safe (h c (List.mem_cons_self _ _)),
      ih (fun x hx => h x (List.mem_cons_of_mem _ hx))]

theorem replaceUnsafe_of_safe {l : List Char}
    (h : ∀ c ∈ l, isSafeChar c = true) : replaceUnsafe l = l := by
  induction l with
  | nil => rfl
  | cons c rest ih =>
    rw [replaceUnsafe, List.map_cons, if_pos (h c (List.mem_cons_self _ _))]
    rw [replaceUnsafe] at ih
    rw [ih (fun x hx => h x (List.mem_cons_of_mem _ hx))]

theorem collapseHyphens_of_noConsec {l : List Char} (h : NoConsec l) :
    collapseHyphens l = l := by
  induction l with
  | nil => rfl
  | cons c₁ t ih =>
    rcases ht : t with _ | ⟨c₂, rest⟩
    · rfl
    · subst ht
      obtain ⟨hR, hrest⟩ := List.chain'_cons.mp h
      simp only [collapseHyphens]
      rw [if_neg hR, ih hrest]

theorem sanitizeName_of_safeShape {l : List Char} (h : SafeShape l) :
    sanitizeName l = l := by
  obtain ⟨_, hmem, hnc, hhead, hlast⟩ := h
  rw [sanitizeName, map_jsToLower_of_safe hmem, replaceUnsafe_of_safe hmem,
    collapseHyphens_of_noConsec hnc, dropLeadingHyphens,
    dropWhile_of_head?_ne _ hhead, dropTrailingHyphens_of_getLast?_ne _ hlast]

theorem toBackstageNameList_of_safeShape {l : List Char} (h : SafeShape l)
    (hlen : l.length ≤ 63) : toBackstageNameList l = l := by
  have hne := h.1
  have hlast := h.2.2.2.2
  rw [toBackstageNameList]
  simp only [sanitizeName_of_safeShape h]
  rw [List.take_of_length_le (by simpa [MAX_ENTITY_NAME_LENGTH] using hlen),
    dropTrailingHyphens_of_getLast?_ne _ hlast]
  simp [hne]

/-- C2: for every raw string, `toBackstageName` returns a string matching
`^[a-z0-9]+(-[a-z0-9]+)*$` or the fixed placeholder `"fleet-entity"`, of
length at most 63. -/
theorem C2_toSafeName_pattern_and_length (s : String) :
    (matchesSafe (toBackstageName s).data = true ∨
        toBackstageName s = "fleet-entity") ∧
      (toBackstageName s).length ≤ 63 := by
  obtain ⟨hshape, hlen⟩ := toBackstageNameList_shape s.data
  exact ⟨Or.inl ((matchesSafe_iff _).mpr hshape), hlen⟩

/-- C10: the name codec is idempotent — re-sanitising an
already-sanitised name never changes it. -/
theorem C10_toSafeName_idempotent (s : String) :
    toBackstageName (toBackstageName s) = toBackstageName s := by
  obtain ⟨hshape, hlen⟩ := toBackstageNameList_shape s.data
  show String.mk (toBackstageNameList (toBackstageNameList s.data)) =
    String.mk (toBackstageNameList s.data)
  rw [toBackstageNameList_of_safeShape hshape hlen]

/-! ## SHA-1 (`createHash("sha1")` from node:crypto)

Standard SHA-1 over byte lists, on `Nat` with explicit reduction mod
`2^32`. -/

/-- Truncate to 32 bits. -/
def w32 (n : Nat) : Nat := n % 4294967296

/-- 32-bit left rotation by `k`. -/
def rotl (k n : Nat) : Nat := w32 ((n <<< k) ||| (n >>> (32 - k)))

/-- UTF-8 encoding of one character (`Buffer.from(str, "utf8")`). -/
def utf8Bytes (c : Char) : List Nat :=
  let n := c.toNat
  if n < 128 then [n]
  else if n < 2048 then [192 ||| (n >>> 6), 128 ||| (n &&& 63)]
  else if n < 65536 then
    [224 ||| (n >>> 12), 128 ||| ((n >>> 6) &&& 63), 128 ||| (n &&& 63)]
  else
    [240 ||| (n >>> 18), 128 ||| ((n >>> 12) &&& 63),
      128 ||| ((n >>> 6) &&& 63), 128 ||| (n &&& 63)]

/-- SHA-1 padding: `0x80`, zeros, then the 64-bit big-endian bit length,
so the total is a multiple of 64 bytes. -/
def sha1Pad (m : List Nat) : List Nat :=
  let len := m.length
  let bitLen := 8 * len
  m ++ 128 :: List.replicate ((119 - len % 64) % 64) 0 ++
    [(bitLen >>> 56) % 256, (bitLen >>> 48) % 256, (bitLen >>> 40) % 256,
      (bitLen >>> 32) % 256, (bitLen >>> 24) % 256, (bitLen >>> 16) % 256,
      (bitLen >>> 8) % 256, bitLen % 256]

/-- Split a byte list into 64-byte chunks. Structural recursion on a
fuel bound (`l.length` always suffices, since every step consumes at
least one byte), so that the kernel can evaluate it. -/
def sha1ChunksGo : Nat → List Nat → List (List Nat)
  | 0, _ => []
  | _ + 1, [] => []
  | fuel + 1, l => l.take 64 :: sha1ChunksGo fuel (l.drop 64)

/-- Split a byte list into 64-byte chunks. -/
def sha1Chunks (l : List Nat) : List (List Nat) := sha1ChunksGo l.length l

/-- Big-endian 32-bit words from bytes (16 words per 64-byte chunk). -/
def sha1Words : List Nat → List Nat
  | b0 :: b1 :: b2 :: b3 :: rest =>
    (b0 * 16777216 + b1 * 65536 + b2 * 256 + b3) :: sha1Words rest
  | _ => []

/-- Message-schedule extension; `acc` holds the words produced so far in
reverse order, `n` counts the words still to produce. -/
def sha1Extend (acc : List Nat) : Nat → List Nat
  | 0 => acc
  | n + 1 =>
    sha1Extend
      (rotl 1 ((acc.getD 2 0 ^^^ acc.getD 7 0) ^^^
        (acc.getD 13 0 ^^^ acc.getD 15 0)) :: acc) n

/-- One round of the SHA-1 compression function. -/
def sha1Round (st : Nat × Nat × Nat × Nat × Nat) (iw : Nat × Nat) :
    Nat × Nat × Nat × Nat × Nat :=
  let (a, b, c, d, e) := st
  let (i, w) := iw
  let f :=
    if i < 20 then (b &&& c) ||| ((b ^^^ 4294967295) &&& d)
    else if i < 40 then (b ^^^ c) ^^^ d
    else if i < 60 then ((b &&& c) ||| (b &&& d)) ||| (c &&& d)
    else (b ^^^ c) ^^^ d
  let k :=
    if i < 20 then 1518500249
    else if i < 40 then 1859775393
    else if i < 60 then 2400959708
    else 3395469782
  (w32 (rotl 5 a + f + e + k + w), a, rotl 30 b, c, d)

/-- Process one 64-byte chunk. -/
def sha1ProcessChunk (hs : Nat × Nat × Nat × Nat × Nat) (chunk : List Nat) :
    Nat × Nat × Nat × Nat × Nat :=
  let ws := (sha1Extend (sha1Words chunk).reverse 64).reverse
  let (h0, h1, h2, h3, h4) := hs
  let (a, b, c, d, e) := ws.enum.foldl sha1Round (h0, h1, h2, h3, h4)
  (w32 (h0 + a), w32 (h1 + b), w32 (h2 + c), w32 (h3 + d), w32 (h4 + e))

/-- SHA-1 of a byte list: the five 32-bit words of the digest. -/
def sha1 (msg : List Nat) : Nat × Nat × Nat × Nat × Nat :=
  (sha1Chunks (sha1Pad msg)).foldl sha1ProcessChunk
    (1732584193, 4023233417, 2562383102, 271733878, 3285377520)

/-- Lowercase hexadecimal digit for `n < 16`. -/
def hexDigit (n : Nat) : Char :=
  if n < 10 then Char.ofNat (48 + n) else Char.ofNat (87 + n)

/-- Six lowercase hex digits of a 24-bit value, most significant first. -/
def hex6 (n : Nat) : List Char :=
  [hexDigit ((n >>> 20) % 16), hexDigit ((n >>> 16) % 16),
    hexDigit ((n >>> 12) % 16), hexDigit ((n >>> 8) % 16),
    hexDigit ((n >>> 4) % 16), hexDigit (n % 16)]

/-- `createHash("sha1").update(clean).digest("hex").slice(0, 6)`: the
first six hex digits of the digest are the top 24 bits of its first
word. -/
def sha1Hex6 (l : List Char) : List Char :=
  hex6 ((sha1 (l.flatMap utf8Bytes)).1 >>> 8)

/-- `toStableBackstageName` on character lists (entityMapper 1142-1159).
`Math.max(1, maxLength - hash.length - 1)` agrees with the `Nat`
expression `max 1 (maxLength - hash.length - 1)` because truncated
subtraction clamps the negative case to 0 and `max 1 0 = 1`. -/
def toStableBackstageNameList (l : List Char) (maxLength : Nat) : List Char :=
  let clean := sanitizeName l
  let fallback := "fleet-entity".data
  if clean = [] then fallback
  else if clean.length ≤ maxLength then clean
  else
    let hash := sha1Hex6 clean
    let base :=
      dropTrailingHyphens (clean.take (max 1 (maxLength - hash.length - 1)))
    let result := dropTrailingHyphens (base ++ '-' :: hash)
    if result = [] then fallback ++ '-' :: hash else result

/-- `toStableBackstageName` from the entity mapper (default maxLength 63). -/
def toStableBackstageName (s : String) (maxLength : Nat := 63) : String :=
  ⟨toStableBackstageNameList s.data maxLength⟩


/-! ### C3: `toStableBackstageName` for over-length inputs -/

theorem hexDigit_alnum : ∀ m < 16, isLowerAlnum (hexDigit m) = true := by
  decide

theorem mem_hex6_alnum (n : Nat) :
    ∀ c ∈ hex6 n, isLowerAlnum c = true := by
  intro c hc
  simp only [hex6, List.mem_cons, List.mem_singleton, List.not_mem_nil,
    or_false] at hc
  rcases hc with h | h | h | h | h | h <;>
    exact h ▸ hexDigit_alnum _ (Nat.mod_lt _ (by omega))

theorem noConsec_of_no_hyphen {l : List Char} (h : ∀ c ∈ l, c ≠ '-') :
    NoConsec l := by
  induction l with
  | nil => exact List.chain'_nil
  | cons c rest ih =>
    refine List.chain'_cons'.mpr ⟨?_, ih fun x hx => h x (List.mem_cons_of_mem _ hx)⟩
    intro y _ hy
    exact h c (List.mem_cons_self _ _) hy.1

theorem length_hex6 (n : Nat) : (hex6 n).length = 6 := rfl

theorem getLast?_hex6 (n : Nat) :
    (hex6 n).getLast? = some (hexDigit (n % 16)) := rfl

theorem head?_hex6 (n : Nat) :
    (hex6 n).head? = some (hexDigit ((n >>> 20) % 16)) := rfl

/-- The over-length branch of `toStableBackstageNameList`, in closed form,
together with its shape and length bounds. -/
theorem toStableBackstageNameList_overlength (l : List Char)
    (maxLength : Nat) (h8 : 8 ≤ maxLength)
    (hover : maxLength < (sanitizeName l).length) :
    toStableBackstageNameList l maxLength =
      dropTrailingHyphens ((sanitizeName l).take (maxLength - 7)) ++
        '-' :: sha1Hex6 (sanitizeName l) ∧
    SafeShape (toStableBackstageNameList l maxLength) ∧
    (toStableBackstageNameList l maxLength).length ≤ maxLength := by
  obtain ⟨hmem, hnc, hhead, _⟩ := sanitizeName_shape l
  set clean := sanitizeName l with hcleandef
  have hclne : clean ≠ [] := by
    intro h
    rw [h] at hover
    simp at hover
  have hnotle : ¬ clean.length ≤ maxLength := by omega
  set hash := sha1Hex6 clean with hhashdef
  have hhashlen : hash.length = 6 := rfl
  have hmax : max 1 (maxLength - hash.length - 1) = maxLength - 7 := by
    rw [hhashlen]
    omega
  set base := dropTrailingHyphens (clean.take (maxLength - 7)) with hbasedef
  have htakene : clean.take (maxLength - 7) ≠ [] := by
    rw [Ne, List.take_eq_nil_iff]
    push_neg
    exact ⟨by omega, hclne⟩
  have htakepre : clean.take (maxLength - 7) <+: clean := List.take_prefix _ _
  have hbasene : base ≠ [] := by
    intro hb
    have hall := (dropTrailingHyphens_eq_nil_iff _).mp hb
    rcases ht : clean.take (maxLength - 7) with _ | ⟨c, rest⟩
    · exact htakene ht
    · have hc : c = '-' := hall c (ht ▸ List.mem_cons_self _ _)
      have : clean.head? = some c := by
        rw [head?_of_pre htakepre (by rw [ht]; simp), ht]
        rfl
      exact hhead (hc ▸ this)
  have hbasepre : base <+: clean.take (maxLength - 7) :=
    dropTrailingHyphens_pre _
  have hheadbase : base.head? = clean.head? := by
    rw [head?_of_pre (hbasepre.trans htakepre) hbasene]
  have hlastbase : base.getLast? ≠ some '-' :=
    getLast?_dropTrailingHyphens _
  have hhashsafe : ∀ c ∈ hash, isSafeChar c = true := by
    intro c hc
    simp [isSafeChar, mem_hex6_alnum _ c hc]
  have hhashnohyphen : ∀ c ∈ hash, c ≠ '-' := fun c hc =>
    isLowerAlnum_ne_hyphen (mem_hex6_alnum _ c hc)
  have hshape : SafeShape (base ++ '-' :: hash) := by
    refine ⟨by simp, ?_, ?_, ?_, ?_⟩
    · intro c hc
      rcases List.mem_append.mp hc with hc | hc
      · exact hmem c (htakepre.sublist.mem (hbasepre.sublist.mem hc))
      · rcases List.mem_cons.mp hc with hc | hc
        · subst hc; decide
        · exact hhashsafe c hc
    · refine List.chain'_append.mpr ⟨?_, ?_, ?_⟩
      · exact noConsec_dropTrailingHyphens
          (noConsec_of_pre htakepre hnc)
      · refine List.chain'_cons'.mpr ⟨?_, noConsec_of_no_hyphen hhashnohyphen⟩
        intro y hy h'
        rw [hhashdef, sha1Hex6, head?_hex6] at hy
        simp only [Option.mem_def, Option.some.injEq] at hy
        exact isLowerAlnum_ne_hyphen
          (hexDigit_alnum _ (Nat.mod_lt _ (by omega))) (hy ▸ h'.2)
      · intro x hx y hy
        simp only [List.head?_cons, Option.mem_def, Option.some.injEq] at hy
        intro h'
        exact hlastbase (hx ▸ congrArg some h'.1 ▸ rfl)
    · rw [List.head?_append_of_ne_nil _ hbasene, hheadbase]
      exact hhead
    · rw [List.getLast?_append_of_ne_nil _ (by simp : ('-' :: hash) ≠ [])]
      rw [show ('-' :: hash).getLast? = hash.getLast? by
        rcases hh : hash with _ | ⟨c, rest⟩
        · rw [hh] at hhashlen; simp at hhashlen
        · rw [List.getLast?_cons_cons]]
      rw [hhashdef, sha1Hex6, getLast?_hex6]
      intro h'
      exact isLowerAlnum_ne_hyphen
        (hexDigit_alnum _ (Nat.mod_lt _ (by omega)))
        (Option.some.injEq _ _ ▸ h')
  have hlastapp : (base ++ '-' :: hash).getLast? ≠ some '-' := hshape.2.2.2.2
  have hresult : dropTrailingHyphens (base ++ '-' :: hash) =
      base ++ '-' :: hash :=
    dropTrailingHyphens_of_getLast?_ne _ hlastapp
  have hresne : base ++ '-' :: hash ≠ [] := by simp
  have heq : toStableBackstageNameList l maxLength = base ++ '-' :: hash := by
    rw [toStableBackstageNameList]
    simp only [← hcleandef]
    rw [if_neg hclne, if_neg hnotle]
    simp only [← hhashdef, hmax, ← hbasedef, hresult]
    rw [if_neg hresne]
  refine ⟨heq, heq ▸ hshape, ?_⟩
  rw [heq]
  have hbl : base.length ≤ maxLength - 7 :=
    le_trans (length_dropTrailingHyphens_le _)
      (by rw [List.length_take]; exact min_le_left _ _)
  simp only [List.length_append, List.length_cons, hhashlen]
  omega


/-- C3 (amended): for `8 ≤ maxLen` and sanitized length over `maxLen`,
`toStableBackstageName` matches the safe-name pattern, has length at most
`maxLen`, and equals the sanitized value truncated to `maxLen - 7`
characters (with any trailing hyphen run the cut exposes stripped),
a hyphen, and the first 6 hex digits of the SHA-1 digest of the full
pre-truncation sanitized value; two over-length inputs sharing a common
63-character sanitized prefix yield different outputs whenever those
6-hex-digit digest prefixes differ. -/
theorem C3_toStableSafeName_overlength_amended :
    (∀ (s : String) (maxLength : Nat), 8 ≤ maxLength →
      maxLength < (sanitizeName s.data).length →
      matchesSafe (toStableBackstageName s maxLength).data = true ∧
      (toStableBackstageName s maxLength).length ≤ maxLength ∧
      (toStableBackstageName s maxLength).data =
        dropTrailingHyphens ((sanitizeName s.data).take (maxLength - 7)) ++
          '-' :: sha1Hex6 (sanitizeName s.data)) ∧
    (∀ (s₁ s₂ : String),
      63 < (sanitizeName s₁.data).length →
      63 < (sanitizeName s₂.data).length →
      (sanitizeName s₁.data).take 63 = (sanitizeName s₂.data).take 63 →
      sha1Hex6 (sanitizeName s₁.data) ≠ sha1Hex6 (sanitizeName s₂.data) →
      toStableBackstageName s₁ 63 ≠ toStableBackstageName s₂ 63) := by
  constructor
  · intro s maxLength h8 hover
    obtain ⟨heq, hshape, hlen⟩ :=
      toStableBackstageNameList_overlength s.data maxLength h8 hover
    exact ⟨(matchesSafe_iff _).mpr hshape, hlen, heq⟩
  · intro s₁ s₂ h1 h2 htake hhash heq
    have hd : toStableBackstageNameList s₁.data 63 =
        toStableBackstageNameList s₂.data 63 := congrArg String.data heq
    obtain ⟨e1, -, -⟩ :=
      toStableBackstageNameList_overlength s₁.data 63 (by norm_num) h1
    obtain ⟨e2, -, -⟩ :=
      toStableBackstageNameList_overlength s₂.data 63 (by norm_num) h2
    have htake56 : (sanitizeName s₁.data).take 56 =
        (sanitizeName s₂.data).take 56 := by
      have t1 : (sanitizeName s₁.data).take 56 =
          ((sanitizeName s₁.data).take 63).take 56 := by
        rw [List.take_take, show (56 : Nat) ⊓ 63 = 56 from rfl]
      have t2 : (sanitizeName s₂.data).take 56 =
          ((sanitizeName s₂.data).take 63).take 56 := by
        rw [List.take_take, show (56 : Nat) ⊓ 63 = 56 from rfl]
      rw [t1, t2, htake]
    rw [e1, e2, show (63 : Nat) - 7 = 56 from rfl, htake56] at hd
    have := List.append_cancel_left hd
    simp only [List.cons.injEq, true_and] at this
    exact hhash this

/-- Witness for C3 (amended) at concrete inputs: 70 `a`s with
`maxLen = 63` for the shape part, and 70 `a`s against 69 `a`s + `b`
(different digest prefixes) for the disambiguation part. -/
theorem C3_toStableSafeName_overlength_amended_witness :
    (matchesSafe (toStableBackstageName "aaaaaaaaaaaaaaaaaaaaaaaaaaaaaaaaaaaaaaaaaaaaaaaaaaaaaaaaaaaaaaaaaaaaaa" 63).data = true ∧
      (toStableBackstageName "aaaaaaaaaaaaaaaaaaaaaaaaaaaaaaaaaaaaaaaaaaaaaaaaaaaaaaaaaaaaaaaaaaaaaa" 63).length ≤ 63 ∧
      (toStableBackstageName "aaaaaaaaaaaaaaaaaaaaaaaaaaaaaaaaaaaaaaaaaaaaaaaaaaaaaaaaaaaaaaaaaaaaaa" 63).data =
        dropTrailingHyphens ((sanitizeName "aaaaaaaaaaaaaaaaaaaaaaaaaaaaaaaaaaaaaaaaaaaaaaaaaaaaaaaaaaaaaaaaaaaaaa".data).take (63 - 7)) ++
          '-' :: sha1Hex6 (sanitizeName "aaaaaaaaaaaaaaaaaaaaaaaaaaaaaaaaaaaaaaaaaaaaaaaaaaaaaaaaaaaaaaaaaaaaaa".data)) ∧
    toStableBackstageName "aaaaaaaaaaaaaaaaaaaaaaaaaaaaaaaaaaaaaaaaaaaaaaaaaaaaaaaaaaaaaaaaaaaaaa" 63 ≠
      toStableBackstageName "aaaaaaaaaaaaaaaaaaaaaaaaaaaaaaaaaaaaaaaaaaaaaaaaaaaaaaaaaaaaaaaaaaaaab" 63 :=
  ⟨C3_toStableSafeName_overlength_amended.1 "aaaaaaaaaaaaaaaaaaaaaaaaaaaaaaaaaaaaaaaaaaaaaaaaaaaaaaaaaaaaaaaaaaaaaa" 63 (by decide) (by decide),
    C3_toStableSafeName_overlength_amended.2 "aaaaaaaaaaaaaaaaaaaaaaaaaaaaaaaaaaaaaaaaaaaaaaaaaaaaaaaaaaaaaaaaaaaaaa" "aaaaaaaaaaaaaaaaaaaaaaaaaaaaaaaaaaaaaaaaaaaaaaaaaaaaaaaaaaaaaaaaaaaaab"
      (by decide) (by decide) (by decide) (by decide)⟩

/-- C3 counterexample: (1) two distinct over-length inputs sharing their
first 63 sanitized characters whose outputs coincide (their SHA-1 digests
agree on the first 6 hex digits: a 24-bit pigeonhole collision), so
hash-based disambiguation is not universal; (2) `maxLen = 5` (below 8)
yields an output longer than `maxLen`; (3) when the `maxLen - 7` cut ends
on a hyphen the literal "truncate, then join with a hyphen" construction
differs from the produced name (the code strips the exposed hyphen run
first). -/
theorem C3_toStableSafeName_counterexample :
    ("aaaaaaaaaaaaaaaaaaaaaaaaaaaaaaaaaaaaaaaaaaaaaaaaaaaaaaaaaaaaaaat2c" ≠ "aaaaaaaaaaaaaaaaaaaaaaaaaaaaaaaaaaaaaaaaaaaaaaaaaaaaaaaaaaaaaaaide" ∧
      63 < (sanitizeName "aaaaaaaaaaaaaaaaaaaaaaaaaaaaaaaaaaaaaaaaaaaaaaaaaaaaaaaaaaaaaaat2c".data).length ∧
      63 < (sanitizeName "aaaaaaaaaaaaaaaaaaaaaaaaaaaaaaaaaaaaaaaaaaaaaaaaaaaaaaaaaaaaaaaide".data).length ∧
      (sanitizeName "aaaaaaaaaaaaaaaaaaaaaaaaaaaaaaaaaaaaaaaaaaaaaaaaaaaaaaaaaaaaaaat2c".data).take 63 =
        (sanitizeName "aaaaaaaaaaaaaaaaaaaaaaaaaaaaaaaaaaaaaaaaaaaaaaaaaaaaaaaaaaaaaaaide".data).take 63 ∧
      toStableBackstageName "aaaaaaaaaaaaaaaaaaaaaaaaaaaaaaaaaaaaaaaaaaaaaaaaaaaaaaaaaaaaaaat2c" 63 =
        toStableBackstageName "aaaaaaaaaaaaaaaaaaaaaaaaaaaaaaaaaaaaaaaaaaaaaaaaaaaaaaaaaaaaaaaide" 63) ∧
    (5 < (sanitizeName "aaaaaaaaa".data).length ∧
      ¬ (toStableBackstageName "aaaaaaaaa" 5).length ≤ 5) ∧
    (63 < (sanitizeName "aaaaaaaaaaaaaaaaaaaaaaaaaaaaaaaaaaaaaaaaaaaaaaaaaaaaaaa-bbbbbbbb".data).length ∧
      (toStableBackstageName "aaaaaaaaaaaaaaaaaaaaaaaaaaaaaaaaaaaaaaaaaaaaaaaaaaaaaaa-bbbbbbbb" 63).data ≠
        (sanitizeName "aaaaaaaaaaaaaaaaaaaaaaaaaaaaaaaaaaaaaaaaaaaaaaaaaaaaaaa-bbbbbbbb".data).take 56 ++
          '-' :: sha1Hex6 (sanitizeName "aaaaaaaaaaaaaaaaaaaaaaaaaaaaaaaaaaaaaaaaaaaaaaaaaaaaaaa-bbbbbbbb".data)) :=
  ⟨⟨by decide, by decide, by decide, by decide, by decide⟩,
    ⟨by decide, by decide⟩, by decide, by decide⟩

/-! ## Status utilities (types.ts 504-545) -/

/-- `FLEET_STATUS_PRIORITY[status] ?? 99`. -/
def fleetStatusPriority (s : String) : Nat :=
  if s = "Ready" then 0
  else if s = "NotReady" then 1
  else if s = "Pending" then 2
  else if s = "OutOfSync" then 3
  else if s = "Modified" then 4
  else if s = "WaitApplied" then 5
  else if s = "ErrApplied" then 6
  else 99

/-- The loop of `getWorstStatus`: `worst`/`worstPriority` are the running
state; `undefined` and `""` entries are skipped (`if (!status) continue`),
and the state is replaced only on a strictly greater priority. -/
def getWorstStatusGo (worst : String) (worstPriority : Nat) :
    List (Option String) → String
  | [] => worst
  | none :: rest => getWorstStatusGo worst worstPriority rest
  | some s :: rest =>
    if s = "" then getWorstStatusGo worst worstPriority rest
    else if worstPriority < fleetStatusPriority s then
      getWorstStatusGo s (fleetStatusPriority s) rest
    else getWorstStatusGo worst worstPriority rest

/-- `getWorstStatus` from types.ts. -/
def getWorstStatus (statuses : List (Option String)) : String :=
  getWorstStatusGo "Ready" 0 statuses

/-- The entries of the input that are neither `undefined` nor `""` (the
ones the loop does not skip). -/
def presentStatuses (statuses : List (Option String)) : List String :=
  statuses.filterMap fun s =>
    match s with
    | none => none
    | some str => if str = "" then none else some str

theorem getWorstStatusGo_spec (l : List (Option String)) :
    ∀ (worst : String) (wp : Nat), wp = fleetStatusPriority worst →
      (getWorstStatusGo worst wp l = worst ∨
        getWorstStatusGo worst wp l ∈ presentStatuses l) ∧
      wp ≤ fleetStatusPriority (getWorstStatusGo worst wp l) ∧
      ∀ s ∈ presentStatuses l,
        fleetStatusPriority s ≤
          fleetStatusPriority (getWorstStatusGo worst wp l) := by
  induction l with
  | nil =>
    intro worst wp hwp
    exact ⟨Or.inl rfl, le_of_eq hwp, by simp [presentStatuses]⟩
  | cons x rest ih =>
    intro worst wp hwp
    rcases x with _ | s
    · have hpres : presentStatuses (none :: rest) = presentStatuses rest := by
        simp [presentStatuses]
      rw [show getWorstStatusGo worst wp (none :: rest) =
        getWorstStatusGo worst wp rest from rfl, hpres]
      exact ih worst wp hwp
    · by_cases hs : s = ""
      · have hpres : presentStatuses (some s :: rest) = presentStatuses rest := by
          simp [presentStatuses, hs]
        rw [show getWorstStatusGo worst wp (some s :: rest) =
          if s = "" then getWorstStatusGo worst wp rest
          else if wp < fleetStatusPriority s then
            getWorstStatusGo s (fleetStatusPriority s) rest
          else getWorstStatusGo worst wp rest from rfl,
          if_pos hs, hpres]
        exact ih worst wp hwp
      · have hpres : presentStatuses (some s :: rest) =
            s :: presentStatuses rest := by
          simp [presentStatuses, hs]
        rw [show getWorstStatusGo worst wp (some s :: rest) =
          if s = "" then getWorstStatusGo worst wp rest
          else if wp < fleetStatusPriority s then
            getWorstStatusGo s (fleetStatusPriority s) rest
          else getWorstStatusGo worst wp rest from rfl,
          if_neg hs, hpres]
        by_cases hlt : wp < fleetStatusPriority s
        · rw [if_pos hlt]
          obtain ⟨hmem, hle, hall⟩ := ih s (fleetStatusPriority s) rfl
          refine ⟨?_, ?_, ?_⟩
          · rcases hmem with hmem | hmem
            · exact Or.inr (by rw [hmem]; exact List.mem_cons_self _ _)
            · exact Or.inr (List.mem_cons_of_mem _ hmem)
          · exact le_trans (le_of_lt hlt) hle
          · intro t ht
            rcases List.mem_cons.mp ht with ht | ht
            · exact ht ▸ hle
            · exact hall t ht
        · rw [if_neg hlt]
          obtain ⟨hmem, hle, hall⟩ := ih worst wp hwp
          refine ⟨?_, hle, ?_⟩
          · rcases hmem with hmem | hmem
            · exact Or.inl hmem
            · exact Or.inr (List.mem_cons_of_mem _ hmem)
          · intro t ht
            rcases List.mem_cons.mp ht with ht | ht
            · exact le_trans (ht ▸ Nat.le_of_not_lt hlt) hle
            · exact hall t ht

/-- C6: `getWorstStatus` folds to the status of maximal priority under
`Ready(0) < NotReady(1) < Pending(2) < OutOfSync(3) < Modified(4) <
WaitApplied(5) < ErrApplied(6)` with unrecognized statuses at 99;
`undefined`/empty entries are skipped, and the result defaults to
`"Ready"` on an empty or entirely-absent input. -/
theorem C6_worstOf_spec :
    fleetStatusPriority "Ready" = 0 ∧ fleetStatusPriority "NotReady" = 1 ∧
    fleetStatusPriority "Pending" = 2 ∧ fleetStatusPriority "OutOfSync" = 3 ∧
    fleetStatusPriority "Modified" = 4 ∧
    fleetStatusPriority "WaitApplied" = 5 ∧
    fleetStatusPriority "ErrApplied" = 6 ∧
    (∀ s : String, s ∉ ["Ready", "NotReady", "Pending", "OutOfSync",
        "Modified", "WaitApplied", "ErrApplied"] →
      fleetStatusPriority s = 99) ∧
    (∀ l : List (Option String),
      (getWorstStatus l = "Ready" ∨ getWorstStatus l ∈ presentStatuses l) ∧
      ∀ s ∈ presentStatuses l,
        fleetStatusPriority s ≤ fleetStatusPriority (getWorstStatus l)) ∧
    getWorstStatus [] = "Ready" ∧
    getWorstStatus [some "Ready", some "ErrApplied", some "Pending"] =
      "ErrApplied" ∧
    getWorstStatus [none, none] = "Ready" := by
  refine ⟨rfl, rfl, rfl, rfl, rfl, rfl, rfl, ?_, ?_, rfl, by decide, rfl⟩
  · intro s hs
    simp only [List.mem_cons, List.not_mem_nil, or_false, not_or] at hs
    obtain ⟨h1, h2, h3, h4, h5, h6, h7⟩ := hs
    simp [fleetStatusPriority, h1, h2, h3, h4, h5, h6, h7]
  · intro l
    obtain ⟨hmem, _, hall⟩ := getWorstStatusGo_spec l "Ready" 0 rfl
    exact ⟨hmem, hall⟩

/-- Witness for C6 at concrete inputs: an unrecognized status has
priority 99, and on a list with present entries the result dominates
each entry. -/
theorem C6_worstOf_spec_witness :
    fleetStatusPriority "SomethingElse" = 99 ∧
    fleetStatusPriority "Pending" ≤
      fleetStatusPriority (getWorstStatus [some "Pending", none, some "Ready"]) := by
  obtain ⟨-, -, -, -, -, -, -, hunk, hgen, -, -, -⟩ := C6_worstOf_spec
  refine ⟨hunk "SomethingElse" (by decide), ?_⟩
  exact (hgen [some "Pending", none, some "Ready"]).2 "Pending" (by decide)

/-- `statusToLifecycle` from types.ts (the `switch` with fall-through
groups). -/
def statusToLifecycle (status : Option String) : String :=
  match status with
  | none => "production"
  | some s =>
    if s = "Ready" then "production"
    else if s = "Pending" then "experimental"
    else if s = "WaitApplied" then "experimental"
    else if s = "NotReady" then "deprecated"
    else if s = "OutOfSync" then "deprecated"
    else if s = "Modified" then "deprecated"
    else if s = "ErrApplied" then "deprecated"
    else "production"

/-- C7: `statusToLifecycle` maps Ready/unknown/absent to `"production"`,
Pending/WaitApplied to `"experimental"`, and exactly the four known-bad
statuses to `"deprecated"` — an unknown status never yields
`"deprecated"`. -/
theorem C7_toLifecycle_spec :
    statusToLifecycle none = "production" ∧
    statusToLifecycle (some "Ready") = "production" ∧
    statusToLifecycle (some "Pending") = "experimental" ∧
    statusToLifecycle (some "WaitApplied") = "experimental" ∧
    statusToLifecycle (some "NotReady") = "deprecated" ∧
    statusToLifecycle (some "OutOfSync") = "deprecated" ∧
    statusToLifecycle (some "Modified") = "deprecated" ∧
    statusToLifecycle (some "ErrApplied") = "deprecated" ∧
    (∀ s : String, s ∉ ["Ready", "Pending", "WaitApplied", "NotReady",
        "OutOfSync", "Modified", "ErrApplied"] →
      statusToLifecycle (some s) = "production") ∧
    (∀ st : Option String, statusToLifecycle st = "deprecated" →
      st ∈ [some "NotReady", some "OutOfSync", some "Modified",
        some "ErrApplied"]) := by
  refine ⟨rfl, rfl, rfl, rfl, rfl, rfl, rfl, rfl, ?_, ?_⟩
  · intro s hs
    simp only [List.mem_cons, List.not_mem_nil, or_false, not_or] at hs
    obtain ⟨h1, h2, h3, h4, h5, h6, h7⟩ := hs
    simp [statusToLifecycle, h1, h2, h3, h4, h5, h6, h7]
  · intro st h
    rcases st with _ | s
    · exact absurd h (by decide)
    · simp only [statusToLifecycle] at h
      split_ifs at h with h1 h2 h3 h4 h5 h6 h7
      · exact absurd h (by decide)
      · exact absurd h (by decide)
      · exact absurd h (by decide)
      · simp [h4]
      · simp [h5]
      · simp [h6]
      · simp [h7]
      · exact absurd h (by decide)

/-- Witness for C7 at concrete inputs: an unrecognized status maps to
`"production"`, and a `"deprecated"` result pins the input to the four
known-bad statuses. -/
theorem C7_toLifecycle_spec_witness :
    statusToLifecycle (some "SomethingElse") = "production" ∧
    some "Modified" ∈ [some "NotReady", some "OutOfSync", some "Modified",
      some "ErrApplied"] := by
  obtain ⟨-, -, -, -, -, -, -, -, hunk, hdep⟩ := C7_toLifecycle_spec
  exact ⟨hunk "SomethingElse" (by decide), hdep (some "Modified") (by decide)⟩

/-! ## The Sync Orchestrator run (provider.ts 593-653) -/

/-- `EntityBatch` from the entity mapper. -/
structure EntityBatch where
  domains : List Entity := []
  systems : List Entity := []
  components : List Entity := []
  resources : List Entity := []
  apis : List Entity := []
  deriving DecidableEq, Repr

/-- `createEmptyBatch` from the entity mapper. -/
def createEmptyBatch : EntityBatch := {}

/-- `flattenBatch` from the entity mapper. -/
def flattenBatch (batch : EntityBatch) : List Entity :=
  batch.domains ++ batch.systems ++ batch.components ++ batch.resources ++
    batch.apis

/-- One mutation applied to the catalog output channel
(`connection.applyMutation`). -/
structure AppliedMutation where
  mtype : String
  entities : List (Entity × String)
  deriving DecidableEq, Repr

/-- `FleetEntityProvider.run`. `connection` is the connection stored by
`connect` (`none` before `connect` is called); `gather` abstracts the body
of the `try` block before `applyMutation` — topology collection plus the
bounded per-cluster fetch fan-out accumulating into the batch — which
either produces the batch or throws. The result is the run's outcome
paired with the list of mutations the run applied to the channel: the
`catch` block only logs and rethrows, so a thrown gather applies nothing,
and a successful run applies exactly one `"full"` mutation carrying the
deduplicated flattened batch, each entity tagged with the provider's
location key. `applyMutation` itself is modelled as non-throwing. -/
def runModel (connection : Option Unit) (locationKey : String)
    (gather : Except String EntityBatch) :
    Except String Unit × List AppliedMutation :=
  match connection with
  | none => (Except.error "FleetEntityProvider is not connected", [])
  | some _ =>
    match gather with
    | Except.error e => (Except.error e, [])
    | Except.ok batch =>
      (Except.ok (),
        [{ mtype := "full",
           entities := (dedupeEntities (flattenBatch batch)).map
             (fun e => (e, locationKey)) }])

/-- C5: `run` before `connect` fails with the "not connected" error and
applies nothing; any failing run applies no mutation; a successful run
applies exactly one full-snapshot mutation with the deduplicated batch. -/
theorem C5_run_not_connected_and_atomic :
    (∀ (lk : String) (gather : Except String EntityBatch),
      (runModel none lk gather).1 =
        Except.error "FleetEntityProvider is not connected" ∧
      (runModel none lk gather).2 = []) ∧
    (∀ (conn : Option Unit) (lk : String)
      (gather : Except String EntityBatch) (e : String),
      (runModel conn lk gather).1 = Except.error e →
      (runModel conn lk gather).2 = []) ∧
    (∀ (conn : Option Unit) (lk : String)
      (gather : Except String EntityBatch),
      (runModel conn lk gather).1 = Except.ok () →
      ∃ batch, gather = Except.ok batch ∧
        (runModel conn lk gather).2 =
          [{ mtype := "full",
             entities := (dedupeEntities (flattenBatch batch)).map
               (fun e => (e, lk)) }]) := by
  refine ⟨fun lk gather => ⟨rfl, rfl⟩, ?_, ?_⟩
  · intro conn lk gather e h
    rcases conn with _ | u
    · rfl
    · rcases gather with e' | batch
      · rfl
      · exact absurd h (by simp [runModel])
  · intro conn lk gather h
    rcases conn with _ | u
    · exact absurd h (by simp [runModel])
    · rcases gather with e' | batch
      · exact absurd h (by simp [runModel])
      · exact ⟨batch, rfl, rfl⟩

/-- Witness for C5 at concrete inputs: a disconnected run, a failing
connected run, and a successful connected run over the empty batch. -/
theorem C5_run_not_connected_and_atomic_witness :
    ((runModel none "fleet:default" (Except.ok createEmptyBatch)).1 =
      Except.error "FleetEntityProvider is not connected" ∧
      (runModel none "fleet:default" (Except.ok createEmptyBatch)).2 = []) ∧
    (runModel (some ()) "fleet:default" (Except.error "upstream down")).2 =
      [] ∧
    ∃ batch, (Except.ok createEmptyBatch : Except String EntityBatch) =
        Except.ok batch ∧
      (runModel (some ()) "fleet:default" (Except.ok createEmptyBatch)).2 =
        [{ mtype := "full",
           entities := (dedupeEntities (flattenBatch batch)).map
             (fun e => (e, "fleet:default")) }] :=
  ⟨C5_run_not_connected_and_atomic.1 "fleet:default" _,
    C5_run_not_connected_and_atomic.2.1 (some ()) "fleet:default" _
      "upstream down" rfl,
    C5_run_not_connected_and_atomic.2.2 (some ()) "fleet:default" _ rfl⟩

/-- C1: the entity set a successful run emits is deduplicated by
`(kind, namespace, name)` with the first entity in produced order kept:
keys in the output are pairwise distinct, the output is a subsequence of
the input, every kept entity is the first of its key, and every input
key survives. -/
theorem C1_dedupe_first_seen_wins :
    (∀ es : List Entity,
      ((dedupeEntities es).map entityKey).Nodup ∧
      (dedupeEntities es).Sublist es ∧
      (∀ e ∈ dedupeEntities es,
        es.find? (fun x => entityKey x == entityKey e) = some e) ∧
      (∀ e ∈ es, ∃ e' ∈ dedupeEntities es, entityKey e' = entityKey e)) ∧
    (∀ (lk : String) (batch : EntityBatch),
      (runModel (some ()) lk (Except.ok batch)).2.map
          (fun m => m.entities.map Prod.fst) =
        [dedupeEntities (flattenBatch batch)]) := by
  constructor
  · intro es
    refine ⟨dedupeGo_nodup [] es, dedupeGo_sublist [] es, ?_, ?_⟩
    · intro e he
      exact (dedupeGo_mem_spec [] es e he).2
    · intro e he
      rcases dedupeGo_complete [] es e he with hseen | h
      · exact absurd hseen (List.not_mem_nil _)
      · exact h
  · intro lk batch
    have hfst : (Prod.fst ∘ fun e : Entity => (e, lk)) = id := rfl
    simp [runModel, hfst]

/-- Two entities sharing one `(kind, namespace, name)` key, for the C1
witness. -/
def dupEntityA : Entity :=
  { kind := "Component", name := "web", nspace := some "team",
    description := "first" }

/-- Second entity with the same key as `dupEntityA`. -/
def dupEntityB : Entity :=
  { kind := "Component", name := "web", nspace := some "team",
    description := "second" }

/-- Witness for C1 at a concrete input: two entities with the same
`(kind, namespace, name)` key; the batch keeps exactly the first. -/
theorem C1_dedupe_first_seen_wins_witness :
    [dupEntityA, dupEntityB].find?
        (fun x => entityKey x == entityKey dupEntityA) = some dupEntityA ∧
    ∃ e' ∈ dedupeEntities [dupEntityA, dupEntityB],
      entityKey e' = entityKey dupEntityB :=
  ⟨(C1_dedupe_first_seen_wins.1 _).2.2.1 _ (by decide),
    (C1_dedupe_first_seen_wins.1 _).2.2.2 _ (by decide)⟩

/-! ## Fleet resource types (types.ts), restricted to the fields the
embedded mappers read. Optional TypeScript fields are `Option`; an
optional `Record` of annotations/labels is a `Rec` whose absence is `[]`
(lookups agree). -/

structure KubeMetadata where
  name : Option String := none
  nspace : Option String := none
  annotations : Rec := []
  labels : Rec := []
  deriving DecidableEq, Repr

structure GitRepoTarget where
  name : Option String := none
  deriving DecidableEq, Repr

structure GitRepoSpec where
  repo : Option String := none
  branch : Option String := none
  targets : Option (List GitRepoTarget) := none
  deriving DecidableEq, Repr

structure DisplayStatus where
  state : Option String := none
  readyClusters : Option String := none
  message : Option String := none
  deriving DecidableEq, Repr

structure StatusResource where
  nspace : Option String := none
  deriving DecidableEq, Repr

structure GitRepoStatus where
  display : Option DisplayStatus := none
  resources : Option (List StatusResource) := none
  deriving DecidableEq, Repr

structure FleetGitRepo where
  metadata : Option KubeMetadata := none
  spec : Option GitRepoSpec := none
  status : Option GitRepoStatus := none
  deriving DecidableEq, Repr

structure BundleDependsOn where
  name : Option String := none
  deriving DecidableEq, Repr

structure BundleSpec where
  targetNamespace : Option String := none
  defaultNamespace : Option String := none
  nspace : Option String := none
  dependsOn : Option (List BundleDependsOn) := none
  deriving DecidableEq, Repr

structure BundleStatus where
  display : Option DisplayStatus := none
  deriving DecidableEq, Repr

structure FleetBundle where
  metadata : Option KubeMetadata := none
  spec : Option BundleSpec := none
  status : Option BundleStatus := none
  deriving DecidableEq, Repr

structure FleetBundleDeployment where
  metadata : Option KubeMetadata := none
  status : Option BundleStatus := none
  deriving DecidableEq, Repr

structure FleetYamlApiDefinition where
  name : String
  atype : Option String := none
  description : Option String := none
  definition : Option String := none
  definitionUrl : Option String := none
  deriving DecidableEq, Repr

structure FleetYamlBackstage where
  btype : Option String := none
  description : Option String := none
  owner : Option String := none
  lifecycle : Option String := none
  tags : Option (List String) := none
  dependsOn : Option (List String) := none
  providesApis : Option (List FleetYamlApiDefinition) := none
  consumesApis : Option (List String) := none
  annotations : Option Rec := none
  deriving DecidableEq, Repr

structure FleetYamlHelm where
  releaseName : Option String := none
  deriving DecidableEq, Repr

structure FleetYaml where
  defaultNamespace : Option String := none
  nspace : Option String := none
  targetNamespace : Option String := none
  helm : Option FleetYamlHelm := none
  dependsOn : Option (List BundleDependsOn) := none
  backstage : Option FleetYamlBackstage := none
  annotations : Option Rec := none
  deriving DecidableEq, Repr

/-- The cluster configuration fields the embedded mappers read. -/
structure FleetClusterConfig where
  name : String
  url : String
  namespaces : List String := []
  autoTechdocsRef : Option Bool := none
  deriving DecidableEq, Repr

/-- `MapperContext` from the entity mapper. -/
structure MapperContext where
  cluster : FleetClusterConfig
  locationKey : String
  fleetYaml : Option FleetYaml := none
  autoTechdocsRef : Option Bool := none
  deriving DecidableEq, Repr

/-! ### Annotation-key constants (entityMapper 1089-1109; the
`backstage.io/managed-by-…` values come from @backstage/catalog-model) -/

def ANNOTATION_LOCATION : String := "backstage.io/managed-by-location"
def ANNOTATION_ORIGIN_LOCATION : String :=
  "backstage.io/managed-by-origin-location"
def ANNOTATION_SOURCE_LOCATION : String := "backstage.io/source-location"
def ANNOTATION_FLEET_REPO : String := "fleet.cattle.io/repo"
def ANNOTATION_FLEET_BRANCH : String := "fleet.cattle.io/branch"
def ANNOTATION_FLEET_NAMESPACE : String := "fleet.cattle.io/namespace"
def ANNOTATION_FLEET_TARGETS : String := "fleet.cattle.io/targets"
def ANNOTATION_FLEET_REPO_NAME : String := "fleet.cattle.io/repo-name"
def ANNOTATION_FLEET_BUNDLE_PATH : String := "fleet.cattle.io/bundle-path"
def ANNOTATION_FLEET_STATUS : String := "fleet.cattle.io/status"
def ANNOTATION_FLEET_READY_CLUSTERS : String :=
  "fleet.cattle.io/ready-clusters"
def ANNOTATION_FLEET_CLUSTER : String := "fleet.cattle.io/cluster"
def ANNOTATION_FLEET_SOURCE_GITREPO : String :=
  "fleet.cattle.io/source-gitrepo"
def ANNOTATION_FLEET_SOURCE_BUNDLE : String :=
  "fleet.cattle.io/source-bundle"
def ANNOTATION_KUBERNETES_ID : String := "backstage.io/kubernetes-id"
def ANNOTATION_KUBERNETES_NAMESPACE : String :=
  "backstage.io/kubernetes-namespace"
def ANNOTATION_KUBERNETES_LABEL_SELECTOR : String :=
  "backstage.io/kubernetes-label-selector"
def ANNOTATION_TECHDOCS_ENTITY : String := "backstage.io/techdocs-entity"
def ANNOTATION_TECHDOCS_REF : String := "backstage.io/techdocs-ref"

/-- `stringifyEntityRef` from @backstage/catalog-model (external
collaborator): lowercases kind and namespace, keeps the name. -/
def stringifyEntityRef (kind nspace name : String) : String :=
  String.mk (kind.data.map jsToLower) ++ ":" ++
    String.mk (nspace.data.map jsToLower) ++ "/" ++ name

/-- The parse result of `new URL(x)` that `deriveOwnerFromRepo` reads. -/
structure UrlParts where
  pathname : String
  deriving DecidableEq, Repr

/-- The WHATWG URL parser (`new URL`) is an external collaborator; the
embedding is parameterised by it, with `none` modelling the constructor
throwing. -/
abbrev UrlParser := String → Option UrlParts

/-- JS `s.split("/")` (one-character separator): `n` separators produce
`n + 1` parts. -/
def jsSplitSlashGo : List Char → List Char → List (List Char)
  | [], acc => [acc.reverse]
  | c :: rest, acc =>
    if c = '/' then acc.reverse :: jsSplitSlashGo rest []
    else jsSplitSlashGo rest (c :: acc)

/-- JS `s.split("/")` on strings. -/
def jsSplitSlash (s : String) : List String :=
  (jsSplitSlashGo s.data []).map String.mk

/-- `deriveOwnerFromRepo` (entityMapper 1168-1179): first nonempty path
segment of the parsed repo URL, sanitised, as `group:default/<segment>`. -/
def deriveOwnerFromRepo (parseUrl : UrlParser) (repo : Option String) :
    Option String :=
  match repo with
  | none => none
  | some r =>
    if r = "" then none
    else
      match parseUrl r with
      | none => none
      | some url =>
        let segments := (jsSplitSlash url.pathname).filter (· ≠ "")
        match segments.head? with
        | none => none
        | some seg => some ("group:default/" ++ toBackstageName seg)

/-- `deriveKubernetesNamespace` (entityMapper 1181-1185). -/
def deriveKubernetesNamespace (fleetYaml : Option FleetYaml)
    (fallback : Option String) : String :=
  (((fleetYaml.bind (·.defaultNamespace)).orElse
      (fun _ => fleetYaml.bind (·.nspace))).orElse
    (fun _ => fallback)).getD "default"

/-- `deriveNamespaceFromStatus` (entityMapper 1187-1193): the first
nonempty namespace among the status-reported applied resources. -/
def deriveNamespaceFromStatus (gitRepo : FleetGitRepo) : Option String :=
  (((gitRepo.status.bind (·.resources)).getD []).filterMap fun r =>
    match r.nspace with
    | none => none
    | some n => if n = "" then none else some n).head?

/-- `JSON.stringify` on an array of plain strings (quoting only; JSON
escape sequences inside the strings are not modelled). -/
def jsonStringifyStrings (l : List String) : String :=
  "[" ++ String.intercalate "," (l.map fun s => "\"" ++ s ++ "\"") ++ "]"

/-- `repo.replace(RegExp slash-at-end, "")`: strip one trailing slash. -/
def stripOneTrailingSlash (s : String) : String :=
  if s.data.getLast? = some '/' then String.mk s.data.dropLast else s

/-- `mapFleetDependsOn` (entityMapper 1760-1779): Component references. -/
def mapFleetDependsOn (deps : List BundleDependsOn) (nspace : String) :
    List String :=
  deps.filterMap fun dep =>
    match dep.name with
    | none => none
    | some n =>
      if n = "" then none
      else some (stringifyEntityRef "Component" nspace (toBackstageName n))

/-- `mapFleetDependsOnToResource` (entityMapper 1784-1803): Resource
references. -/
def mapFleetDependsOnToResource (deps : List BundleDependsOn)
    (nspace : String) : List String :=
  deps.filterMap fun dep =>
    match dep.name with
    | none => none
    | some n =>
      if n = "" then none
      else some (stringifyEntityRef "Resource" nspace (toBackstageName n))

/-- JS `!x` on an optional string: `undefined` and `""` are falsy. -/
def jsFalsyStr : Option String → Bool
  | none => true
  | some v => v == ""

/-! ## `mapGitRepoToSystem` (entityMapper 1303-1453) -/

/-- The annotations `mapGitRepoToSystem` computes before the
DescriptorFile merges: the object literal followed by the conditional
assignments, in source order. -/
def gitRepoSystemBaseAnnotations (gitRepo : FleetGitRepo)
    (context : MapperContext) : Rec :=
  let fleetYaml := context.fleetYaml
  let targets := ((gitRepo.spec.bind (·.targets)).getD []).filterMap
    fun t =>
      match t.name with
      | none => none
      | some n => if n = "" then none else some n
  let status := ((gitRepo.status.bind (·.display)).bind (·.state)).getD
    "Unknown"
  let a0 : Rec :=
    [(ANNOTATION_LOCATION, context.locationKey),
      (ANNOTATION_ORIGIN_LOCATION, context.locationKey),
      (ANNOTATION_FLEET_REPO, (gitRepo.spec.bind (·.repo)).getD ""),
      (ANNOTATION_FLEET_BRANCH, (gitRepo.spec.bind (·.branch)).getD "main"),
      (ANNOTATION_FLEET_NAMESPACE, (gitRepo.metadata.bind (·.nspace)).getD ""),
      (ANNOTATION_FLEET_CLUSTER, context.cluster.name),
      (ANNOTATION_FLEET_STATUS, status)]
  let a1 := if targets.length > 0 then
      recSet a0 ANNOTATION_FLEET_TARGETS (jsonStringifyStrings targets)
    else a0
  let a2 :=
    match gitRepo.spec.bind (·.repo) with
    | some r =>
      if r ≠ "" then recSet a1 ANNOTATION_SOURCE_LOCATION ("url:" ++ r)
      else a1
    | none => a1
  let a3 :=
    match (gitRepo.status.bind (·.display)).bind (·.readyClusters) with
    | some rc =>
      if rc ≠ "" then recSet a2 ANNOTATION_FLEET_READY_CLUSTERS rc else a2
    | none => a2
  let kubeNamespace :=
    match deriveNamespaceFromStatus gitRepo with
    | some n => n
    | none =>
      deriveKubernetesNamespace fleetYaml (gitRepo.metadata.bind (·.nspace))
  let a4 := if kubeNamespace ≠ "" then
      recSet a3 ANNOTATION_KUBERNETES_NAMESPACE kubeNamespace
    else a3
  match gitRepo.metadata.bind (·.name) with
  | some gn =>
    if gn ≠ "" then
      recSet a4 ANNOTATION_KUBERNETES_LABEL_SELECTOR
        ("app.kubernetes.io/name=" ++ gn)
    else a4
  | none => a4

/-- The two `Object.assign(annotations, ...)` statements both mappers
run: the DescriptorFile top-level annotations, then its backstage-section
annotations, assigned into the computed ones. -/
def applyFleetYamlAnnotationMerges (base : Rec)
    (fleetYaml : Option FleetYaml) : Rec :=
  let a6 :=
    match fleetYaml.bind (·.annotations) with
    | some a => recMerge base a
    | none => base
  match (fleetYaml.bind (·.backstage)).bind (·.annotations) with
  | some a => recMerge a6 a
  | none => a6

/-- The value a key ends up overridden with by the two DescriptorFile
merges: the backstage-section annotations win over the top-level ones. -/
def effectiveOverride (fleetYaml : Option FleetYaml) (k : String) :
    Option String :=
  match ((fleetYaml.bind (·.backstage)).bind (·.annotations)).bind
      (fun a => recGetLast a k) with
  | some v => some v
  | none => (fleetYaml.bind (·.annotations)).bind fun a => recGetLast a k

theorem recGet_applyFleetYamlAnnotationMerges (base : Rec)
    (fleetYaml : Option FleetYaml) (k : String) :
    recGet (applyFleetYamlAnnotationMerges base fleetYaml) k =
      match effectiveOverride fleetYaml k with
      | some v => some v
      | none => recGet base k := by
  unfold applyFleetYamlAnnotationMerges effectiveOverride
  cases hA2 : (fleetYaml.bind (·.backstage)).bind (·.annotations) with
  | none =>
    cases hA1 : fleetYaml.bind (·.annotations) with
    | none => simp
    | some b =>
      simp only [Option.some_bind, Option.none_bind, recGet_recMerge]
  | some a =>
    cases hA1 : fleetYaml.bind (·.annotations) with
    | none =>
      simp only [Option.some_bind, Option.none_bind, recGet_recMerge]
      cases recGetLast a k <;> rfl
    | some b =>
      simp only [Option.some_bind, recGet_recMerge]
      cases recGetLast a k with
      | none => cases recGetLast b k <;> rfl
      | some v => rfl

/-- The auto-techdocs-ref assignment of `mapGitRepoToSystem`, applied to
the already-merged annotations `a7`: guarded on the flag, a truthy repo
URL and the key being absent or empty. -/
def gitRepoTechdocsRefStep (a7 : Rec) (gitRepo : FleetGitRepo)
    (context : MapperContext) : Rec :=
  match gitRepo.spec.bind (·.repo) with
  | some r =>
    if context.autoTechdocsRef ≠ some false ∧ r ≠ "" ∧
        jsFalsyStr (recGet a7 ANNOTATION_TECHDOCS_REF) = true then
      recSet a7 ANNOTATION_TECHDOCS_REF
        ("url:" ++ stripOneTrailingSlash r ++ "/-/tree/" ++
          ((gitRepo.spec.bind (·.branch)).getD "main"))
    else a7
  | none => a7

/-- The final annotations of the produced System: the DescriptorFile
merges, then the auto-techdocs-ref assignment. -/
def mapGitRepoToSystemAnnotations (gitRepo : FleetGitRepo)
    (context : MapperContext) : Rec :=
  gitRepoTechdocsRefStep
    (applyFleetYamlAnnotationMerges
      (gitRepoSystemBaseAnnotations gitRepo context) context.fleetYaml)
    gitRepo context

/-- The `derivedOwner` of `mapGitRepoToSystem`: DescriptorFile backstage
owner, else repo-URL-derived owner, else the fixed fallback. -/
def gitRepoSystemOwner (parseUrl : UrlParser) (gitRepo : FleetGitRepo)
    (context : MapperContext) : String :=
  match (context.fleetYaml.bind (·.backstage)).bind (·.owner) with
  | some o => o
  | none =>
    match deriveOwnerFromRepo parseUrl (gitRepo.spec.bind (·.repo)) with
    | some o => o
    | none => "group:default/default"

/-- `mapGitRepoToSystem` from the entity mapper. -/
def mapGitRepoToSystem (parseUrl : UrlParser) (gitRepo : FleetGitRepo)
    (context : MapperContext) : Entity :=
  let name := toBackstageName
    ((gitRepo.metadata.bind (·.name)).getD "fleet-gitrepo")
  let nspace := toEntityNamespace
    ((gitRepo.metadata.bind (·.nspace)).getD "fleet-default")
  let fleetYaml := context.fleetYaml
  let status := ((gitRepo.status.bind (·.display)).bind (·.state)).getD
    "Unknown"
  let metaAnnotations := (gitRepo.metadata.map (·.annotations)).getD []
  let descriptionFromRepo :=
    ((recGet metaAnnotations "field.cattle.io/description").orElse fun _ =>
      recGet metaAnnotations "description").getD
      ("Fleet GitRepo: " ++ ((gitRepo.spec.bind (·.repo)).getD "unknown"))
  let description :=
    ((fleetYaml.bind (·.backstage)).bind (·.description)).getD
      descriptionFromRepo
  let tags := dedupFirst (["fleet", "gitops"] ++
    ((fleetYaml.bind (·.backstage)).bind (·.tags)).getD [])
  let links :=
    match gitRepo.spec.bind (·.repo) with
    | some r => if r ≠ "" then [(r, "Git Repository")] else []
    | none => []
  let dependsOn := ((fleetYaml.bind (·.backstage)).bind (·.dependsOn)).getD [] ++
    (match fleetYaml.bind (·.dependsOn) with
      | some deps => mapFleetDependsOn deps nspace
      | none => [])
  let providesApis :=
    match (fleetYaml.bind (·.backstage)).bind (·.providesApis) with
    | some apis => apis.map fun api =>
        stringifyEntityRef "API" nspace (toBackstageName api.name)
    | none => []
  let consumesApis :=
    ((fleetYaml.bind (·.backstage)).bind (·.consumesApis)).getD []
  let domain := stringifyEntityRef "Domain" "default"
    (toBackstageName context.cluster.name)
  { kind := "System"
    name := name
    nspace := some nspace
    description := description
    annotations := mapGitRepoToSystemAnnotations gitRepo context
    tags := tags
    links := links
    lifecycle := some (statusToLifecycle (some status))
    owner := some (gitRepoSystemOwner parseUrl gitRepo context)
    domain := some domain
    dependsOn := if dependsOn.length > 0 then dedupFirst dependsOn else []
    providesApis := providesApis
    consumesApis := consumesApis }

/-- C8: owner resolution order of the produced System — DescriptorFile
enrichment owner first; else `group:default/<segment>` from the first
path segment of the parsed source URL (the segment passed through the
name codec); else the fixed fallback `group:default/default`. -/
theorem C8_system_owner_resolution :
    (∀ (parseUrl : UrlParser) (gitRepo : FleetGitRepo)
      (context : MapperContext) (o : String),
      (context.fleetYaml.bind (·.backstage)).bind (·.owner) = some o →
      (mapGitRepoToSystem parseUrl gitRepo context).owner = some o) ∧
    (∀ (parseUrl : UrlParser) (gitRepo : FleetGitRepo)
      (context : MapperContext) (r : String) (url : UrlParts)
      (seg : String) (rest : List String),
      (context.fleetYaml.bind (·.backstage)).bind (·.owner) = none →
      gitRepo.spec.bind (·.repo) = some r → r ≠ "" →
      parseUrl r = some url →
      (jsSplitSlash url.pathname).filter (· ≠ "") = seg :: rest →
      (mapGitRepoToSystem parseUrl gitRepo context).owner =
        some ("group:default/" ++ toBackstageName seg)) ∧
    (∀ (parseUrl : UrlParser) (gitRepo : FleetGitRepo)
      (context : MapperContext),
      (context.fleetYaml.bind (·.backstage)).bind (·.owner) = none →
      deriveOwnerFromRepo parseUrl (gitRepo.spec.bind (·.repo)) = none →
      (mapGitRepoToSystem parseUrl gitRepo context).owner =
        some "group:default/default") := by
  refine ⟨?_, ?_, ?_⟩
  · intro parseUrl gitRepo context o howner
    simp only [mapGitRepoToSystem, gitRepoSystemOwner, howner]
  · intro parseUrl gitRepo context r url seg rest howner hrepo hrne hurl hsegs
    simp only [mapGitRepoToSystem, gitRepoSystemOwner, howner,
      deriveOwnerFromRepo, hrepo, if_neg hrne, hurl, hsegs, List.head?_cons]
  · intro parseUrl gitRepo context howner hderive
    simp only [mapGitRepoToSystem, gitRepoSystemOwner, howner, hderive]

/-- A concrete GitRepo for the C8/C4 witnesses. -/
def gitRepoW : FleetGitRepo :=
  { metadata := some { name := some "my-app", nspace := some "fleet-default" },
    spec := some { repo := some "https://git.example.com/Gorizond/fleet-examples",
                   branch := some "main" } }

/-- A mapper context whose DescriptorFile declares `owner: team-platform`
(end-to-end scenario C). -/
def ctxOwnerW : MapperContext :=
  { cluster := { name := "rancher-prod", url := "https://rancher.example.com" },
    locationKey := "fleet:default",
    fleetYaml := some { backstage := some { owner := some "team-platform" } } }

/-- The same context without a DescriptorFile owner. -/
def ctxNoOwnerW : MapperContext :=
  { cluster := { name := "rancher-prod", url := "https://rancher.example.com" },
    locationKey := "fleet:default",
    fleetYaml := some { backstage := some {} } }

/-- A URL parser fixture returning the pathname of the witness repo URL. -/
def parseUrlW : UrlParser := fun _ => some { pathname := "/Gorizond/fleet-examples" }

/-- Witness for C8: with `owner: team-platform` declared the System's
owner is `team-platform` regardless of the URL; without it the owner is
derived from the first URL path segment; with no parseable URL it falls
back to `group:default/default`. -/
theorem C8_system_owner_resolution_witness :
    (mapGitRepoToSystem parseUrlW gitRepoW ctxOwnerW).owner =
      some "team-platform" ∧
    (mapGitRepoToSystem parseUrlW gitRepoW ctxNoOwnerW).owner =
      some ("group:default/" ++ toBackstageName "Gorizond") ∧
    (mapGitRepoToSystem (fun _ => none) gitRepoW ctxNoOwnerW).owner =
      some "group:default/default" :=
  ⟨C8_system_owner_resolution.1 parseUrlW gitRepoW ctxOwnerW "team-platform"
      rfl,
    C8_system_owner_resolution.2.1 parseUrlW gitRepoW ctxNoOwnerW
      "https://git.example.com/Gorizond/fleet-examples"
      { pathname := "/Gorizond/fleet-examples" } "Gorizond" ["fleet-examples"]
      rfl rfl (by decide) rfl (by decide),
    C8_system_owner_resolution.2.2 (fun _ => none) gitRepoW ctxNoOwnerW rfl
      (by decide)⟩

/-! ## `mapBundleToComponent` (entityMapper 1459-1584) -/

/-- The `systemRef` of `mapBundleToComponent`: derived from the
`fleet.cattle.io/repo-name` label when that label is truthy. -/
def bundleComponentSystemRef (bundle : FleetBundle) (nspace : String) :
    Option String :=
  match recGet ((bundle.metadata.map (·.labels)).getD [])
      "fleet.cattle.io/repo-name" with
  | some g =>
    if g = "" then none
    else some (stringifyEntityRef "System" nspace (toBackstageName g))
  | none => none

/-- The annotations `mapBundleToComponent` computes before the
DescriptorFile merges, in source order. -/
def bundleComponentBaseAnnotations (bundle : FleetBundle)
    (context : MapperContext) : Rec :=
  let fleetYaml := context.fleetYaml
  let labels := (bundle.metadata.map (·.labels)).getD []
  let gitRepoName := recGet labels "fleet.cattle.io/repo-name"
  let bundlePath := recGet labels "fleet.cattle.io/bundle-path"
  let status := ((bundle.status.bind (·.display)).bind (·.state)).getD
    "Unknown"
  let a0 : Rec :=
    [(ANNOTATION_LOCATION, context.locationKey),
      (ANNOTATION_ORIGIN_LOCATION, context.locationKey),
      (ANNOTATION_FLEET_STATUS, status),
      (ANNOTATION_FLEET_CLUSTER, context.cluster.name)]
  let a1 := if jsFalsyStr gitRepoName = false then
      recSet (recSet a0 ANNOTATION_FLEET_REPO_NAME (gitRepoName.getD ""))
        ANNOTATION_FLEET_SOURCE_GITREPO (gitRepoName.getD "")
    else a0
  let a2 := if jsFalsyStr bundlePath = false then
      recSet a1 ANNOTATION_FLEET_BUNDLE_PATH (bundlePath.getD "")
    else a1
  let readyClusters := (bundle.status.bind (·.display)).bind
    (·.readyClusters)
  let a3 := if jsFalsyStr readyClusters = false then
      recSet a2 ANNOTATION_FLEET_READY_CLUSTERS (readyClusters.getD "")
    else a2
  let targetNamespace :=
    ((((((bundle.spec.bind (·.targetNamespace)).orElse
            (fun _ => bundle.spec.bind (·.defaultNamespace))).orElse
          (fun _ => bundle.spec.bind (·.nspace))).orElse
        (fun _ => fleetYaml.bind (·.targetNamespace))).orElse
      (fun _ => fleetYaml.bind (·.defaultNamespace))).orElse
    (fun _ => fleetYaml.bind (·.nspace))).getD "default"
  let a4 := recSet a3 ANNOTATION_KUBERNETES_NAMESPACE targetNamespace
  let helmReleaseName := ((fleetYaml.bind (·.helm)).bind
    (·.releaseName)).orElse (fun _ => bundle.metadata.bind (·.name))
  let objectsetHash := recGet labels "objectset.rio.cattle.io/hash"
  if jsFalsyStr helmReleaseName = false then
    recSet a4 ANNOTATION_KUBERNETES_LABEL_SELECTOR
      ("app.kubernetes.io/instance=" ++ helmReleaseName.getD "")
  else if jsFalsyStr objectsetHash = false then
    recSet a4 ANNOTATION_KUBERNETES_LABEL_SELECTOR
      ("objectset.rio.cattle.io/hash=" ++ objectsetHash.getD "")
  else a4

/-- The object spread `{...annotations, ...(systemRef ?
{techdocs-entity} : undefined)}` of `mapBundleToComponent`, applied to
the already-merged annotations `a7`: assigns the derived System
reference last when present. -/
def bundleTechdocsEntityStep (a7 : Rec) (bundle : FleetBundle) : Rec :=
  match bundleComponentSystemRef bundle (toEntityNamespace
      ((bundle.metadata.bind (·.nspace)).getD "fleet-default")) with
  | some r => recSet a7 ANNOTATION_TECHDOCS_ENTITY r
  | none => a7

/-- The final annotations of the produced Component: the DescriptorFile
merges on the computed annotations, then the spread assigning the derived
System reference. -/
def mapBundleToComponentAnnotations (bundle : FleetBundle)
    (context : MapperContext) : Rec :=
  bundleTechdocsEntityStep
    (applyFleetYamlAnnotationMerges
      (bundleComponentBaseAnnotations bundle context) context.fleetYaml)
    bundle

/-- `mapBundleToComponent` from the entity mapper. -/
def mapBundleToComponent (bundle : FleetBundle)
    (context : MapperContext) : Entity :=
  let name := toBackstageName
    ((bundle.metadata.bind (·.name)).getD "fleet-bundle")
  let nspace := toEntityNamespace
    ((bundle.metadata.bind (·.nspace)).getD "fleet-default")
  let fleetYaml := context.fleetYaml
  let systemRef := bundleComponentSystemRef bundle nspace
  let description :=
    ((fleetYaml.bind (·.backstage)).bind (·.description)).getD
      ("Fleet Bundle: " ++ ((bundle.metadata.bind (·.name)).getD "unknown"))
  let tags := dedupFirst (["fleet", "fleet-bundle"] ++
    ((fleetYaml.bind (·.backstage)).bind (·.tags)).getD [])
  let dependsOn :=
    (match bundle.spec.bind (·.dependsOn) with
      | some deps => mapFleetDependsOnToResource deps nspace
      | none => []) ++
    (match fleetYaml.bind (·.dependsOn) with
      | some deps => mapFleetDependsOnToResource deps nspace
      | none => [])
  { kind := "Component"
    name := name
    nspace := some nspace
    description := description
    annotations := mapBundleToComponentAnnotations bundle context
    tags := tags
    etype := some (((fleetYaml.bind (·.backstage)).bind (·.btype)).getD
      "service")
    lifecycle := some (((fleetYaml.bind (·.backstage)).bind
      (·.lifecycle)).getD "production")
    owner := some (((fleetYaml.bind (·.backstage)).bind (·.owner)).getD
      "unknown")
    system := systemRef
    dependsOn := if dependsOn.length > 0 then dedupFirst dependsOn else [] }


theorem bundleComponentSystemRef_none_of_falsy (bundle : FleetBundle)
    (nspace : String)
    (h : jsFalsyStr (recGet ((bundle.metadata.map (·.labels)).getD [])
      "fleet.cattle.io/repo-name") = true) :
    bundleComponentSystemRef bundle nspace = none := by
  unfold bundleComponentSystemRef
  cases hs : recGet ((bundle.metadata.map (·.labels)).getD [])
      "fleet.cattle.io/repo-name" with
  | none => rfl
  | some g =>
    rw [hs] at h
    have hg : g = "" := by simpa [jsFalsyStr] using h
    subst hg
    rfl

theorem recGet_gitRepoTechdocsRefStep (a7 : Rec) (gitRepo : FleetGitRepo)
    (context : MapperContext) (k v : String)
    (h7 : recGet a7 k = some v)
    (hkv : k = ANNOTATION_TECHDOCS_REF → v ≠ "") :
    recGet (gitRepoTechdocsRefStep a7 gitRepo context) k = some v := by
  unfold gitRepoTechdocsRefStep
  split
  · rename_i r heq
    by_cases hguard : context.autoTechdocsRef ≠ some false ∧ r ≠ "" ∧
        jsFalsyStr (recGet a7 ANNOTATION_TECHDOCS_REF) = true
    · rw [if_pos hguard]
      by_cases hk : k = ANNOTATION_TECHDOCS_REF
      · exfalso
        have hfalsy := hguard.2.2
        rw [← hk, h7] at hfalsy
        have : v = "" := by simpa [jsFalsyStr] using hfalsy
        exact hkv hk this
      · rw [recGet_recSet, if_neg hk]
        exact h7
    · rw [if_neg hguard]
      exact h7
  · exact h7

theorem recGet_bundleTechdocsEntityStep (a7 : Rec) (bundle : FleetBundle)
    (k v : String) (h7 : recGet a7 k = some v)
    (hside : k ≠ ANNOTATION_TECHDOCS_ENTITY ∨
      jsFalsyStr (recGet ((bundle.metadata.map (·.labels)).getD [])
        "fleet.cattle.io/repo-name") = true) :
    recGet (bundleTechdocsEntityStep a7 bundle) k = some v := by
  unfold bundleTechdocsEntityStep
  cases hsys : bundleComponentSystemRef bundle (toEntityNamespace
      ((bundle.metadata.bind (·.nspace)).getD "fleet-default")) with
  | none => exact h7
  | some r =>
    have hk : k ≠ ANNOTATION_TECHDOCS_ENTITY := by
      rcases hside with hk | hfalsy
      · exact hk
      · rw [bundleComponentSystemRef_none_of_falsy bundle _ hfalsy] at hsys
        cases hsys
    rw [recGet_recSet, if_neg hk]
    exact h7

/-- C4 (amended): `mapGitRepoToSystem` and `mapBundleToComponent` merge
the DescriptorFile annotation overrides after the computed defaults
(backstage-section values winning over top-level ones), so the operator's
value is emitted — except that `mapBundleToComponent` overwrites
`backstage.io/techdocs-entity` with the derived System reference whenever
the bundle's `fleet.cattle.io/repo-name` label is truthy, and an
empty-string override of `backstage.io/techdocs-ref` in
`mapGitRepoToSystem` is replaced by the computed tree URL when the
auto-doc-ref path runs. -/
theorem C4_annotation_overrides_amended :
    (∀ (parseUrl : UrlParser) (gitRepo : FleetGitRepo)
      (context : MapperContext) (k v : String),
      effectiveOverride context.fleetYaml k = some v →
      (k = ANNOTATION_TECHDOCS_REF → v ≠ "") →
      recGet (mapGitRepoToSystem parseUrl gitRepo context).annotations k =
        some v) ∧
    (∀ (bundle : FleetBundle) (context : MapperContext) (k v : String),
      effectiveOverride context.fleetYaml k = some v →
      (k ≠ ANNOTATION_TECHDOCS_ENTITY ∨
        jsFalsyStr (recGet ((bundle.metadata.map (·.labels)).getD [])
          "fleet.cattle.io/repo-name") = true) →
      recGet (mapBundleToComponent bundle context).annotations k = some v) ∧
    (∀ (bundle : FleetBundle) (context : MapperContext) (g : String),
      recGet ((bundle.metadata.map (·.labels)).getD [])
        "fleet.cattle.io/repo-name" = some g → g ≠ "" →
      recGet (mapBundleToComponent bundle context).annotations
          ANNOTATION_TECHDOCS_ENTITY =
        some (stringifyEntityRef "System"
          (toEntityNamespace ((bundle.metadata.bind (·.nspace)).getD
            "fleet-default"))
          (toBackstageName g))) := by
  refine ⟨?_, ?_, ?_⟩
  · intro parseUrl gitRepo context k v hov hkv
    have hproj : (mapGitRepoToSystem parseUrl gitRepo context).annotations =
        mapGitRepoToSystemAnnotations gitRepo context := rfl
    rw [hproj, mapGitRepoToSystemAnnotations]
    refine recGet_gitRepoTechdocsRefStep _ gitRepo context k v ?_ hkv
    rw [recGet_applyFleetYamlAnnotationMerges, hov]
  · intro bundle context k v hov hside
    have hproj : (mapBundleToComponent bundle context).annotations =
        mapBundleToComponentAnnotations bundle context := rfl
    rw [hproj, mapBundleToComponentAnnotations]
    refine recGet_bundleTechdocsEntityStep _ bundle k v ?_ hside
    rw [recGet_applyFleetYamlAnnotationMerges, hov]
  · intro bundle context g hg hgne
    have hproj : (mapBundleToComponent bundle context).annotations =
        mapBundleToComponentAnnotations bundle context := rfl
    rw [hproj, mapBundleToComponentAnnotations, bundleTechdocsEntityStep]
    have hsys : bundleComponentSystemRef bundle (toEntityNamespace
        ((bundle.metadata.bind (·.nspace)).getD "fleet-default")) =
        some (stringifyEntityRef "System"
          (toEntityNamespace ((bundle.metadata.bind (·.nspace)).getD
            "fleet-default"))
          (toBackstageName g)) := by
      unfold bundleComponentSystemRef
      rw [hg]
      simp only [if_neg hgne]
    rw [hsys, recGet_recSet, if_pos rfl]

/-- The bundle of the C4 counterexample: it carries the
`fleet.cattle.io/repo-name` label. -/
def bundleCX : FleetBundle :=
  { metadata :=
      some { name := some "my-app-bundle",
             nspace := some "fleet-default",
             labels := [("fleet.cattle.io/repo-name", "my-repo")] } }

/-- The DescriptorFile of the C4 counterexample and witness: the operator
explicitly sets `backstage.io/techdocs-entity`. -/
def fleetYamlCX : FleetYaml :=
  { backstage :=
      some { annotations := some [("backstage.io/techdocs-entity", "operator-value")] } }

/-- The mapper context of the C4 counterexample. -/
def ctxCX : MapperContext :=
  { cluster := { name := "rancher-prod", url := "https://rancher.example.com" },
    locationKey := "fleet:default",
    fleetYaml := some fleetYamlCX }

/-- C4 counterexample: the operator sets
`backstage.io/techdocs-entity: operator-value` in the DescriptorFile, but
the emitted Component carries the computed System reference instead — the
override is not merged last for this key. -/
theorem C4_annotation_overrides_counterexample :
    effectiveOverride ctxCX.fleetYaml ANNOTATION_TECHDOCS_ENTITY =
      some "operator-value" ∧
    recGet (mapBundleToComponent bundleCX ctxCX).annotations
        ANNOTATION_TECHDOCS_ENTITY =
      some "system:fleet-default/my-repo" ∧
    recGet (mapBundleToComponent bundleCX ctxCX).annotations
        ANNOTATION_TECHDOCS_ENTITY ≠ some "operator-value" :=
  ⟨by decide, by decide, by decide⟩

/-- A DescriptorFile carrying a free-form annotation override, for the C4
witness. -/
def fleetYamlPD : FleetYaml :=
  { backstage :=
      some { annotations := some [("pagerduty.com/integration-key", "abc123")] } }

/-- A mapper context carrying `fleetYamlPD`. -/
def ctxPD : MapperContext :=
  { cluster := { name := "rancher-prod", url := "https://rancher.example.com" },
    locationKey := "fleet:default",
    fleetYaml := some fleetYamlPD }

/-- A mapper context carrying the techdocs-entity override of the C4
counterexample. -/
def ctxTD : MapperContext :=
  { cluster := { name := "rancher-prod", url := "https://rancher.example.com" },
    locationKey := "fleet:default",
    fleetYaml := some fleetYamlCX }

/-- A bundle without the repo-name label, for the C4 witness. -/
def bundlePlain : FleetBundle :=
  { metadata := some { name := some "plain-bundle" } }

/-- Witness for C4 (amended) at concrete inputs: a DescriptorFile
annotation override lands on the System; the techdocs-entity override
lands on a Component without the repo-name label; and with the label
present the Component's techdocs-entity is the computed reference. -/
theorem C4_annotation_overrides_amended_witness :
    recGet (mapGitRepoToSystem parseUrlW gitRepoW ctxPD).annotations
      "pagerduty.com/integration-key" = some "abc123" ∧
    recGet (mapBundleToComponent bundlePlain ctxTD).annotations
      "backstage.io/techdocs-entity" = some "operator-value" ∧
    recGet (mapBundleToComponent bundleCX ctxCX).annotations
        ANNOTATION_TECHDOCS_ENTITY =
      some (stringifyEntityRef "System" (toEntityNamespace "fleet-default")
        (toBackstageName "my-repo")) :=
  ⟨C4_annotation_overrides_amended.1 parseUrlW gitRepoW ctxPD
      "pagerduty.com/integration-key" "abc123" (by decide) (by decide),
    C4_annotation_overrides_amended.2.1 bundlePlain ctxTD
      "backstage.io/techdocs-entity" "operator-value" (by decide)
      (Or.inr (by decide)),
    C4_annotation_overrides_amended.2.2 bundleCX ctxCX "my-repo" (by decide)
      (by decide)⟩

/-! ## BundleDeployment processing (`FleetClient.extractClusterIdFromNamespace`,
`extractWorkspaceNamespaceFromBundleDeploymentNamespace`,
`deriveFriendlyClusterName`, `mapClusterToResource`,
`mapBundleDeploymentToResource`, and the BundleDeployment loop of
`FleetEntityProvider.processBundle`) -/

/-- `FleetClient.extractClusterIdFromNamespace`: match against
`RegExp("^cluster-fleet-(?:default|local)-(.+)$")` on character lists.
The two prefix alternatives are mutually exclusive, and `(.+)` requires
a nonempty remainder. -/
def extractClusterIdL (l : List Char) : Option (List Char) :=
  if "cluster-fleet-default-".data.isPrefixOf l then
    if l.drop 22 = [] then none else some (l.drop 22)
  else if "cluster-fleet-local-".data.isPrefixOf l then
    if l.drop 20 = [] then none else some (l.drop 20)
  else none

/-- `FleetClient.extractClusterIdFromNamespace` on strings. -/
def extractClusterIdFromNamespace (nspace : String) : Option String :=
  (extractClusterIdL nspace.data).map String.mk

/-- `extractWorkspaceNamespaceFromBundleDeploymentNamespace`
(entityMapper 1747-1753): match against
`RegExp("^cluster-fleet-([^-]+)-.+$")` and return `fleet-<group1>`; the
greedy `[^-]+` is the maximal hyphen-free run after the fixed prefix,
which must be followed by a hyphen and at least one more character. -/
def extractWorkspaceNamespaceL (l : List Char) : Option (List Char) :=
  if "cluster-fleet-".data.isPrefixOf l then
    let rest := l.drop 14
    let w := rest.takeWhile (· ≠ '-')
    if w ≠ [] ∧ 2 ≤ (rest.dropWhile (· ≠ '-')).length then
      some ("fleet-".data ++ w)
    else none
  else none

/-- `extractWorkspaceNamespaceFromBundleDeploymentNamespace` on strings. -/
def extractWorkspaceNamespaceFromBundleDeploymentNamespace
    (nspace : String) : Option String :=
  (extractWorkspaceNamespaceL nspace.data).map String.mk

/-- Membership in `[a-f0-9]`. -/
def isLowerHex (c : Char) : Bool :=
  (97 ≤ c.toNat && c.toNat ≤ 102) || (48 ≤ c.toNat && c.toNat ≤ 57)

/-- `deriveFriendlyClusterName` (provider.ts 61-65): match against
`RegExp("^(.*?)-[a-f0-9]{12}$")`. The end anchor pins the hyphen to
position `length - 13`, so the lazy group is exactly the first
`length - 13` characters. -/
def deriveFriendlyClusterName (clusterId : String) : Option String :=
  let l := clusterId.data
  if 13 ≤ l.length ∧ (l.drop (l.length - 13)).head? = some '-' ∧
      (l.drop (l.length - 12)).all isLowerHex then
    some (String.mk (l.take (l.length - 13)))
  else none

/-- `mapClusterToResource` (entityMapper 1263-1297). -/
def mapClusterToResource (clusterId : String)
    (clusterName : Option String) (nspace : String)
    (context : MapperContext) : Entity :=
  let safeName := toBackstageName (clusterName.getD clusterId)
  let entityNamespace := toEntityNamespace nspace
  { kind := "Resource"
    name := safeName
    nspace := some entityNamespace
    description := "Downstream Kubernetes cluster: " ++
      (clusterName.getD clusterId)
    annotations :=
      [(ANNOTATION_LOCATION, context.locationKey),
        (ANNOTATION_ORIGIN_LOCATION, context.locationKey),
        (ANNOTATION_FLEET_CLUSTER, clusterId),
        (ANNOTATION_KUBERNETES_ID, clusterId)]
    tags := ["fleet", "kubernetes-cluster"]
    etype := some "kubernetes-cluster"
    owner := some "platform-team" }

/-- `mapBundleDeploymentToResource` (entityMapper 1590-1685). -/
def mapBundleDeploymentToResource (bundleDeployment : FleetBundleDeployment)
    (clusterId : String) (context : MapperContext)
    (systemRef : Option String) (clusterName : Option String) : Entity :=
  let bdName := (bundleDeployment.metadata.bind (·.name)).getD
    "fleet-bundle-deployment"
  let originalName := bdName ++ "-" ++ clusterId
  let name := toStableBackstageName originalName 50
  let nspace := toEntityNamespace
    ((bundleDeployment.metadata.bind (·.nspace)).getD "fleet-default")
  let status := ((bundleDeployment.status.bind (·.display)).bind
    (·.state)).getD "Unknown"
  let clusterDisplayName := clusterName.getD clusterId
  let clusterResourceName := toBackstageName clusterDisplayName
  let a0 : Rec :=
    [(ANNOTATION_LOCATION, context.locationKey),
      (ANNOTATION_ORIGIN_LOCATION, context.locationKey),
      (ANNOTATION_FLEET_STATUS, status),
      (ANNOTATION_FLEET_CLUSTER, clusterId),
      ("fleet.cattle.io/bundle-deployment", bdName),
      ("fleet.cattle.io/original-name", originalName),
      ("fleet.cattle.io/target-cluster-id", clusterId)]
  let message := (bundleDeployment.status.bind (·.display)).bind (·.message)
  let a1 := if jsFalsyStr message = false then
      recSet a0 "fleet.cattle.io/message"
        (String.mk ((message.getD "").data.take 500))
    else a0
  let bundleName := recGet
    ((bundleDeployment.metadata.map (·.labels)).getD [])
    "fleet.cattle.io/bundle-name"
  let a2 := if jsFalsyStr bundleName = false then
      recSet a1 ANNOTATION_FLEET_SOURCE_BUNDLE (bundleName.getD "")
    else a1
  let clusterWorkspaceNamespace :=
    (extractWorkspaceNamespaceFromBundleDeploymentNamespace
      ((bundleDeployment.metadata.bind (·.nspace)).getD "")).getD "default"
  let workspaceNamespace :=
    extractWorkspaceNamespaceFromBundleDeploymentNamespace
      ((bundleDeployment.metadata.bind (·.nspace)).getD "")
  let dependsOn :=
    (if jsFalsyStr bundleName = false then
      [stringifyEntityRef "Component"
        (match workspaceNamespace with
          | some w => toEntityNamespace w
          | none => toEntityNamespace
              ((bundleDeployment.metadata.bind (·.nspace)).getD ""))
        (toBackstageName (bundleName.getD ""))]
    else []) ++
    [stringifyEntityRef "Resource" clusterWorkspaceNamespace
      clusterResourceName]
  let a3 := if jsFalsyStr bundleName = false then
      match systemRef with
      | some r => recSet a2 ANNOTATION_TECHDOCS_ENTITY r
      | none => a2
    else a2
  { kind := "Resource"
    name := name
    nspace := some nspace
    description := "Fleet deployment: " ++ bdName ++ " on cluster " ++
      clusterDisplayName
    annotations := a3
    tags := ["fleet", "fleet-deployment", "cluster-" ++ clusterResourceName]
    etype := some "fleet-deployment"
    owner := some (((context.fleetYaml.bind (·.backstage)).bind
      (·.owner)).getD "unknown")
    dependsOn := dependsOn }

/-- One iteration of the BundleDeployment loop of
`FleetEntityProvider.processBundle` (provider.ts 830-876): when no
cluster id can be extracted from the record's namespace the record
contributes nothing; otherwise it contributes the downstream-cluster
Resource and the fleet-deployment Resource. (The `recordWorkspaceNamespace`
bookkeeping and `clusterStats` lookup only feed enrichment data and are
not modelled.) -/
def processBundleDeploymentRecord (bd : FleetBundleDeployment)
    (clusterNameMap : Option Rec) (context : MapperContext)
    (parentSystemRef : Option String) : List Entity :=
  match extractClusterIdFromNamespace
      ((bd.metadata.bind (·.nspace)).getD "") with
  | none => []
  | some clusterId =>
    let workspaceNamespace :=
      (extractWorkspaceNamespaceFromBundleDeploymentNamespace
        ((bd.metadata.bind (·.nspace)).getD "")).getD "fleet-default"
    let derivedClusterId := deriveFriendlyClusterName clusterId
    let clusterFriendlyName :=
      (((clusterNameMap.bind (fun m => recGet m clusterId)).orElse fun _ =>
          match derivedClusterId with
          | some d => clusterNameMap.bind fun m => recGet m d
          | none => none).orElse fun _ => derivedClusterId).getD clusterId
    [mapClusterToResource clusterId (some clusterFriendlyName)
        workspaceNamespace context,
      mapBundleDeploymentToResource bd clusterId context parentSystemRef
        (some clusterFriendlyName)]

/-- The BundleDeployment phase of `processBundle`: gated on the
`includeBundleDeployments` flag, one loop iteration per fetched record. -/
def processBundleDeployments (includeBundleDeployments : Bool)
    (deployments : List FleetBundleDeployment)
    (clusterNameMap : Option Rec) (context : MapperContext)
    (parentSystemRef : Option String) : List Entity :=
  if includeBundleDeployments then
    deployments.flatMap fun bd =>
      processBundleDeploymentRecord bd clusterNameMap context parentSystemRef
  else []

theorem hyphenfree_append_eq :
    ∀ (p w : List Char), (∀ c ∈ p, c ≠ '-') → (∀ c ∈ w, c ≠ '-') →
      ∀ (x y : List Char), p ++ '-' :: x = w ++ '-' :: y →
        p = w ∧ x = y := by
  intro p
  induction p with
  | nil =>
    intro w hp hw x y h
    cases w with
    | nil =>
      simp only [List.nil_append] at h
      exact ⟨rfl, (List.cons.injEq _ _ _ _).mp h |>.2⟩
    | cons c w' =>
      exfalso
      simp only [List.nil_append, List.cons_append, List.cons.injEq] at h
      exact hw c (List.mem_cons_self _ _) h.1.symm
  | cons a p' ih =>
    intro w hp hw x y h
    cases w with
    | nil =>
      exfalso
      simp only [List.cons_append, List.nil_append, List.cons.injEq] at h
      exact hp a (List.mem_cons_self _ _) h.1
    | cons c w' =>
      simp only [List.cons_append, List.cons.injEq] at h
      obtain ⟨hpw, hxy⟩ := ih w' (fun d hd => hp d (List.mem_cons_of_mem _ hd))
        (fun d hd => hw d (List.mem_cons_of_mem _ hd)) x y h.2
      exact ⟨by rw [h.1, hpw], hxy⟩

theorem not_default_isPrefixOf_local (t : List Char) :
    ¬ ("cluster-fleet-default-".data.isPrefixOf
      ("cluster-fleet-local-".data ++ t) = true) := by
  intro h
  obtain ⟨u, hu⟩ := List.isPrefixOf_iff_prefix.mp h
  have h14 : ("cluster-fleet-default-".data ++ u)[14]? =
      ("cluster-fleet-local-".data ++ t)[14]? := by rw [hu]
  rw [List.getElem?_append_left (by decide),
    List.getElem?_append_left (by decide)] at h14
  exact absurd h14 (by decide)

theorem extractClusterIdL_eq_some_iff (l t : List Char) :
    extractClusterIdL l = some t ↔
      t ≠ [] ∧ (l = "cluster-fleet-default-".data ++ t ∨
        l = "cluster-fleet-local-".data ++ t) := by
  constructor
  · intro h
    unfold extractClusterIdL at h
    by_cases h1 : "cluster-fleet-default-".data.isPrefixOf l = true
    · rw [if_pos h1] at h
      obtain ⟨u, hu⟩ := List.isPrefixOf_iff_prefix.mp h1
      have hdrop : l.drop 22 = u := by
        rw [← hu, show (22 : Nat) = ("cluster-fleet-default-".data).length
          from rfl, List.drop_left]
      by_cases h2 : l.drop 22 = []
      · rw [if_pos h2] at h
        cases h
      · rw [if_neg h2] at h
        have ht : t = u := by
          have := (Option.some.injEq _ _).mp h
          rw [← this, hdrop]
        refine ⟨?_, Or.inl ?_⟩
        · intro hte
          exact h2 (by rw [(Option.some.injEq _ _).mp h, hte])
        · rw [← hu, ht]
    · rw [if_neg h1] at h
      by_cases h2 : "cluster-fleet-local-".data.isPrefixOf l = true
      · rw [if_pos h2] at h
        obtain ⟨u, hu⟩ := List.isPrefixOf_iff_prefix.mp h2
        have hdrop : l.drop 20 = u := by
          rw [← hu, show (20 : Nat) = ("cluster-fleet-local-".data).length
            from rfl, List.drop_left]
        by_cases h3 : l.drop 20 = []
        · rw [if_pos h3] at h
          cases h
        · rw [if_neg h3] at h
          have ht : t = u := by
            have := (Option.some.injEq _ _).mp h
            rw [← this, hdrop]
          refine ⟨?_, Or.inr ?_⟩
          · intro hte
            exact h3 (by rw [hdrop, ← ht, hte])
          · rw [← hu, ht]
      · rw [if_neg h2] at h
        cases h
  · rintro ⟨hne, hl | hl⟩
    · subst hl
      have h1 : "cluster-fleet-default-".data.isPrefixOf
          ("cluster-fleet-default-".data ++ t) = true :=
        List.isPrefixOf_iff_prefix.mpr ⟨t, rfl⟩
      have hdrop : ("cluster-fleet-default-".data ++ t).drop 22 = t := by
        rw [show (22 : Nat) = ("cluster-fleet-default-".data).length
          from rfl, List.drop_left]
      unfold extractClusterIdL
      rw [if_pos h1, hdrop, if_neg hne]
    · subst hl
      have h1 := not_default_isPrefixOf_local t
      have h2 : "cluster-fleet-local-".data.isPrefixOf
          ("cluster-fleet-local-".data ++ t) = true :=
        List.isPrefixOf_iff_prefix.mpr ⟨t, rfl⟩
      have hdrop : ("cluster-fleet-local-".data ++ t).drop 20 = t := by
        rw [show (20 : Nat) = ("cluster-fleet-local-".data).length
          from rfl, List.drop_left]
      unfold extractClusterIdL
      rw [if_neg h1, if_pos h2, hdrop, if_neg hne]

/-- C9: `extractClusterIdFromNamespace` returns a cluster id exactly for
namespaces of the form `cluster-fleet-default-<id>` or
`cluster-fleet-local-<id>` with nonempty `<id>` (returning the trailing
portion); for a workspace token other than `default`/`local` nothing is
extracted and the BundleDeployment loop of `processBundle` produces no
entities for that record; the loop itself is the flat-map of the
per-record step, gated on `includeBundleDeployments`. -/
theorem C9_cluster_id_extraction_gate :
    (∀ (nspace id : String),
      extractClusterIdFromNamespace nspace = some id ↔
        (id ≠ "" ∧ (nspace = "cluster-fleet-default-" ++ id ∨
          nspace = "cluster-fleet-local-" ++ id))) ∧
    (∀ (w id : String) (bd : FleetBundleDeployment)
      (clusterNameMap : Option Rec) (context : MapperContext)
      (parentSystemRef : Option String),
      (∀ c ∈ w.data, c ≠ '-') → w ≠ "default" → w ≠ "local" →
      bd.metadata.bind (·.nspace) =
        some ("cluster-fleet-" ++ w ++ "-" ++ id) →
      extractClusterIdFromNamespace ("cluster-fleet-" ++ w ++ "-" ++ id) =
        none ∧
      processBundleDeploymentRecord bd clusterNameMap context
        parentSystemRef = []) ∧
    (∀ (deployments : List FleetBundleDeployment) (m : Option Rec)
      (context : MapperContext) (s : Option String),
      processBundleDeployments true deployments m context s =
        deployments.flatMap (fun bd =>
          processBundleDeploymentRecord bd m context s) ∧
      processBundleDeployments false deployments m context s = []) := by
  have hiff : ∀ (nspace id : String),
      extractClusterIdFromNamespace nspace = some id ↔
        (id ≠ "" ∧ (nspace = "cluster-fleet-default-" ++ id ∨
          nspace = "cluster-fleet-local-" ++ id)) := by
    intro ns id
    constructor
    · intro h
      unfold extractClusterIdFromNamespace at h
      cases hx : extractClusterIdL ns.data with
      | none => rw [hx] at h; cases h
      | some t =>
        rw [hx] at h
        have hid : String.mk t = id := (Option.some.injEq _ _).mp h
        obtain ⟨hne, hd | hd⟩ := (extractClusterIdL_eq_some_iff _ _).mp hx
        · refine ⟨?_, Or.inl ?_⟩
          · intro hide
            apply hne
            have : id.data = t := by rw [← hid]
            rw [← this, hide]
          · apply String.ext
            rw [String.data_append, hd, ← hid]
        · refine ⟨?_, Or.inr ?_⟩
          · intro hide
            apply hne
            have : id.data = t := by rw [← hid]
            rw [← this, hide]
          · apply String.ext
            rw [String.data_append, hd, ← hid]
    · rintro ⟨hne, hd | hd⟩
      · have hdne : id.data ≠ [] := by
          intro hdata
          exact hne (String.ext hdata)
        have hx : extractClusterIdL ns.data = some id.data :=
          (extractClusterIdL_eq_some_iff _ _).mpr
            ⟨hdne, Or.inl (by rw [hd, String.data_append])⟩
        unfold extractClusterIdFromNamespace
        rw [hx]
        rfl
      · have hdne : id.data ≠ [] := by
          intro hdata
          exact hne (String.ext hdata)
        have hx : extractClusterIdL ns.data = some id.data :=
          (extractClusterIdL_eq_some_iff _ _).mpr
            ⟨hdne, Or.inr (by rw [hd, String.data_append])⟩
        unfold extractClusterIdFromNamespace
        rw [hx]
        rfl
  refine ⟨hiff, ?_, ?_⟩
  · intro w id bd clusterNameMap context parentSystemRef hw hwd hwl hns
    have hdata : ("cluster-fleet-" ++ w ++ "-" ++ id).data =
        "cluster-fleet-".data ++ (w.data ++ '-' :: id.data) := by
      simp only [String.data_append, List.append_assoc]
      rfl
    have hextract : extractClusterIdFromNamespace
        ("cluster-fleet-" ++ w ++ "-" ++ id) = none := by
      unfold extractClusterIdFromNamespace
      cases hx : extractClusterIdL ("cluster-fleet-" ++ w ++ "-" ++ id).data
        with
      | none => rfl
      | some t =>
        exfalso
        obtain ⟨hne, hd | hd⟩ := (extractClusterIdL_eq_some_iff _ _).mp hx
        · have hsplit : "cluster-fleet-default-".data ++ t =
              "cluster-fleet-".data ++ ("default".data ++ '-' :: t) := by
            rw [show "cluster-fleet-default-".data =
              "cluster-fleet-".data ++ ("default".data ++ ['-']) from rfl]
            simp [List.append_assoc]
          rw [hdata, hsplit] at hd
          have hcancel := List.append_cancel_left hd
          obtain ⟨hweq, -⟩ := hyphenfree_append_eq "default".data w.data
            (by decide) hw t id.data hcancel.symm
          exact hwd (String.ext hweq.symm)
        · have hsplit : "cluster-fleet-local-".data ++ t =
              "cluster-fleet-".data ++ ("local".data ++ '-' :: t) := by
            rw [show "cluster-fleet-local-".data =
              "cluster-fleet-".data ++ ("local".data ++ ['-']) from rfl]
            simp [List.append_assoc]
          rw [hdata, hsplit] at hd
          have hcancel := List.append_cancel_left hd
          obtain ⟨hweq, -⟩ := hyphenfree_append_eq "local".data w.data
            (by decide) hw t id.data hcancel.symm
          exact hwl (String.ext hweq.symm)
    refine ⟨hextract, ?_⟩
    unfold processBundleDeploymentRecord
    rw [hns, Option.getD_some, hextract]
  · intro deployments m context s
    exact ⟨rfl, rfl⟩

/-- A BundleDeployment in a workspace that is neither `default` nor
`local`, for the C9 witness. -/
def bdCustomW : FleetBundleDeployment :=
  { metadata :=
      some { name := some "app-bundle",
             nspace := some "cluster-fleet-custom-test" } }

/-- Witness for C9 at concrete inputs: a `default`-workspace namespace
yields its trailing cluster id, and a `custom`-workspace record yields no
cluster id and no entities. -/
theorem C9_cluster_id_extraction_gate_witness :
    extractClusterIdFromNamespace "cluster-fleet-default-my-cluster" =
      some "my-cluster" ∧
    extractClusterIdFromNamespace ("cluster-fleet-" ++ "custom" ++ "-" ++
      "test") = none ∧
    processBundleDeploymentRecord bdCustomW none ctxNoOwnerW none = [] := by
  have h2 := C9_cluster_id_extraction_gate.2.1 "custom" "test" bdCustomW
    none ctxNoOwnerW none (by decide) (by decide) (by decide) (by decide)
  exact ⟨(C9_cluster_id_extraction_gate.1
      "cluster-fleet-default-my-cluster" "my-cluster").mpr
      ⟨by decide, Or.inl (by decide)⟩,
    h2.1, h2.2⟩
